import Mathlib

/-!
Verification of the Salesforce data-migration scripts.

Each definition below is a shallow embedding of a function of the
repository (file and line references in the doc comments).  Python
dicts are modelled as association lists or as functions into
`Option`, Salesforce query results as explicit input lists, and the
remote org as explicit state threaded through the functions.
Exceptions are modelled with `Except String`.
-/

/- ===================================================================
   ChunkedBatcher: `_chunk_list` in src/reletedDataHelper.py lines
   28-30 (`for i in range(0, len(items), size): yield items[i:i+size]`).
   The same slicing loop appears verbatim in src/mappings.py
   (`fetch_target_mappings`, lines 12-13), src/activity_import2.py
   (`fetch_records`, lines 52-53) and src/migrateCDL2.py line 104.
   For size = 0 Python `range` raises ValueError before yielding
   anything; the claims only concern size > 0, and the embedding
   returns [] in that case.
   =================================================================== -/

def chunkList {α : Type} (size : Nat) : List α → List (List α)
  | [] => []
  | a :: rest =>
    if _h : size = 0 then []
    else (a :: rest).take size :: chunkList size ((a :: rest).drop size)
termination_by items => items.length
decreasing_by
  simp only [List.length_drop, List.length_cons]
  omega

theorem chunkList_nil {α : Type} (size : Nat) : chunkList size ([] : List α) = [] := by
  simp [chunkList]

theorem chunkList_pos {α : Type} (size : Nat) (a : α) (rest : List α) (h2 : size ≠ 0) :
    chunkList size (a :: rest) =
      (a :: rest).take size :: chunkList size ((a :: rest).drop size) := by
  rw [chunkList]
  simp [h2]

theorem chunkList_flatten {α : Type} (size : Nat) (items : List α) (hs : size ≠ 0) :
    (chunkList size items).flatten = items := by
  induction items using chunkList.induct size with
  | case1 => simp [chunkList]
  | case2 a rest h => exact absurd h hs
  | case3 a rest h ih =>
    rw [chunkList_pos size a rest h]
    simp only [List.flatten_cons, ih]
    exact List.take_append_drop size (a :: rest)

theorem chunkList_length {α : Type} (size : Nat) (items : List α) (hs : size ≠ 0) :
    (chunkList size items).length = (items.length + size - 1) / size := by
  induction items using chunkList.induct size with
  | case1 =>
    rw [chunkList_nil]
    simp only [List.length_nil, Nat.zero_add]
    exact (Nat.div_eq_of_lt (Nat.sub_lt (Nat.pos_of_ne_zero hs) Nat.one_pos)).symm
  | case2 a rest h => exact absurd h hs
  | case3 a rest h ih =>
    rw [chunkList_pos size a rest h]
    simp only [List.length_cons, ih, List.length_drop]
    have hspos : 0 < size := Nat.pos_of_ne_zero h
    rcases le_or_lt size (rest.length + 1) with hle | hlt
    · have h1 : rest.length + 1 - size + size - 1 = rest.length := by omega
      have h2 : rest.length + 1 + size - 1 = rest.length + size := by omega
      rw [h1, h2, Nat.add_div_right _ hspos]
    · have h1 : (rest.length + 1 - size + size - 1) / size = 0 := by
        apply Nat.div_eq_of_lt
        omega
      have h2 : (rest.length + 1 + size - 1) / size = 1 := by
        apply Nat.div_eq_of_lt_le
        · omega
        · omega
      rw [h1, h2]

theorem chunkList_sizes {α : Type} (size : Nat) (items : List α) :
    ∀ c ∈ chunkList size items, c.length ≤ size := by
  induction items using chunkList.induct size with
  | case1 => intro c hc; rw [chunkList_nil] at hc; cases hc
  | case2 a rest h =>
    intro c hc
    rw [chunkList] at hc
    simp [h] at hc
  | case3 a rest h ih =>
    rw [chunkList_pos size a rest h]
    intro c hc
    rcases List.mem_cons.mp hc with hc | hc
    · subst hc
      simp only [List.length_take]
      exact Nat.min_le_left _ _
    · exact ih c hc

theorem chunkList_no_empty {α : Type} (size : Nat) (items : List α) :
    ∀ c ∈ chunkList size items, c ≠ [] := by
  induction items using chunkList.induct size with
  | case1 => intro c hc; rw [chunkList_nil] at hc; cases hc
  | case2 a rest h =>
    intro c hc
    rw [chunkList] at hc
    simp [h] at hc
  | case3 a rest h ih =>
    rw [chunkList_pos size a rest h]
    intro c hc
    rcases List.mem_cons.mp hc with hc | hc
    · subst hc
      simp only [ne_eq, List.take_eq_nil_iff]
      push_neg
      exact ⟨h, by simp⟩
    · exact ih c hc

/-- C6: for every input sequence of size M and chunk size N > 0, the
chunking loop of `_chunk_list` (reletedDataHelper.py 28-30, and the
identical slicing loop of `fetch_target_mappings` in mappings.py)
yields exactly ceil(M/N) chunks, their concatenation reconstructs the
input exactly, every chunk has size at most N, and no chunk is empty
unless the input is empty. -/
theorem C6_chunking_spec {α : Type} (items : List α) (N : Nat) (hN : 0 < N) :
    (chunkList N items).length = (items.length + N - 1) / N ∧
    (chunkList N items).flatten = items ∧
    (∀ c ∈ chunkList N items, c.length ≤ N) ∧
    (∀ c ∈ chunkList N items, c ≠ []) :=
  ⟨chunkList_length N items (Nat.pos_iff_ne_zero.mp hN),
   chunkList_flatten N items (Nat.pos_iff_ne_zero.mp hN),
   chunkList_sizes N items,
   chunkList_no_empty N items⟩

/-- C6 witness: the chunking spec evaluated on the concrete input
[1,2,3,4,5] with chunk size 2. -/
theorem C6_chunking_spec_witness :
    (chunkList 2 [1, 2, 3, 4, 5]).length = (5 + 2 - 1) / 2 ∧
    (chunkList 2 [1, 2, 3, 4, 5]).flatten = [1, 2, 3, 4, 5] ∧
    (∀ c ∈ chunkList 2 [1, 2, 3, 4, 5], c.length ≤ 2) ∧
    (∀ c ∈ chunkList 2 [1, 2, 3, 4, 5], c ≠ []) := by
  have h := C6_chunking_spec [1, 2, 3, 4, 5] 2 (by decide)
  simpa using h

/- ===================================================================
   RetryExecutor: src/utils/retry_utils.py.
   `retry_salesforce_operation` (lines 45-73) loops
   `for attempt in range(max_retries + 1)`, returning the operation
   result on success; on an exception it re-raises when
   `attempt == max_retries` and otherwise sleeps and retries.
   The operation is modelled as `op : Nat -> Except String A` giving
   the outcome of its (i+1)-th invocation; an exception is `.error`.
   `retryAux op attempt remaining` mirrors the loop with
   `remaining = max_retries - attempt`, and additionally returns the
   number of invocations performed.
   =================================================================== -/

def retryAux {α : Type} (op : Nat → Except String α) (attempt remaining : Nat) :
    Except String α × Nat :=
  match op attempt, remaining with
  | .ok a, _ => (.ok a, 1)
  | .error e, 0 => (.error e, 1)
  | .error _, r + 1 =>
    let rec2 := retryAux op (attempt + 1) r
    (rec2.1, rec2.2 + 1)
termination_by remaining

def retry_salesforce_operation {α : Type} (op : Nat → Except String α)
    (max_retries : Nat) : Except String α :=
  (retryAux op 0 max_retries).1

def retryInvocations {α : Type} (op : Nat → Except String α)
    (max_retries : Nat) : Nat :=
  (retryAux op 0 max_retries).2

/-- One per-record element of a bulk-insert result list, as normalized
by the scripts (success flag, created id, error messages). -/
structure InsertResult where
  success : Bool
  id : Option String
  errors : List String
deriving Repr, DecidableEq

/-- `safe_bulk_insert` (retry_utils.py lines 75-101): runs the bulk
insert through `retry_salesforce_operation`; if that raises after all
retries, it catches the exception and returns one Failed result per
input record carrying the exception message. The remote bulk call is
modelled as `bulkInsert : Nat -> Except String (List InsertResult)`
giving the outcome of its (i+1)-th invocation. -/
def safe_bulk_insert {ρ : Type} (bulkInsert : Nat → Except String (List InsertResult))
    (records : List ρ) (max_retries : Nat) : List InsertResult :=
  match retry_salesforce_operation bulkInsert max_retries with
  | .ok results => results
  | .error e => records.map (fun _ => ⟨false, none, [e]⟩)

theorem retryAux_all_fail {α : Type} (op : Nat → Except String α) (errf : Nat → String)
    (hop : ∀ i, op i = .error (errf i)) :
    ∀ remaining attempt,
      retryAux op attempt remaining = (.error (errf (attempt + remaining)), remaining + 1) := by
  intro remaining
  induction remaining with
  | zero =>
    intro attempt
    rw [retryAux.eq_def, hop attempt]
    simp
  | succ r ih =>
    intro attempt
    rw [retryAux.eq_def, hop attempt]
    simp only [ih (attempt + 1)]
    have h : attempt + 1 + r = attempt + (r + 1) := by omega
    simp [h]

theorem retryAux_first_success {α : Type} (op : Nat → Except String α) (a : α) :
    ∀ k remaining attempt, k ≤ remaining →
      (∀ i, i < k → ∃ e, op (attempt + i) = .error e) →
      op (attempt + k) = .ok a →
      retryAux op attempt remaining = (.ok a, k + 1) := by
  intro k
  induction k with
  | zero =>
    intro remaining attempt _ _ hok
    simp only [Nat.add_zero] at hok
    rw [retryAux.eq_def, hok]
  | succ k ih =>
    intro remaining attempt hk hfail hok
    obtain ⟨r, rfl⟩ : ∃ r, remaining = r + 1 := ⟨remaining - 1, by omega⟩
    obtain ⟨e, he⟩ := hfail 0 (Nat.succ_pos k)
    simp only [Nat.add_zero] at he
    rw [retryAux.eq_def, he]
    have hrec := ih r (attempt + 1) (by omega)
      (fun i hi => by
        obtain ⟨e2, he2⟩ := hfail (i + 1) (by omega)
        exact ⟨e2, by rw [← he2]; ring_nf⟩)
      (by rw [← hok]; ring_nf)
    simp [hrec]

/-- C1 counterexample: the claim says the retry executor, on
exhaustion, returns a Failed result and never propagates the
exception. At the concrete input of an operation that always raises
"boom" and max_retries = 0, `retry_salesforce_operation` evaluates to
`.error "boom"`: in the embedding this is the exception escaping to
the caller (retry_utils.py line 67 `raise`), not a returned Failed
result. -/
theorem C1_counterexample :
    retry_salesforce_operation (fun _ => (.error "boom" : Except String Nat)) 0 =
      .error "boom" := by
  simp [retry_salesforce_operation, retryAux.eq_def]

/-- C1 amended: if the operation raises on its first N-1 invocations
and succeeds on the N-th with N <= max_retries+1, the executor returns
that success result after exactly N invocations (this part of the
claim holds as stated, for `retry_salesforce_operation` and therefore
for `safe_bulk_insert`); if the operation raises on every invocation,
`retry_salesforce_operation` invokes it exactly max_retries+1 times
and then re-raises the last exception — it does NOT return a Failed
result — while `safe_bulk_insert`, built on it, catches that exception
and returns one Failed result per input record carrying the last
exception message, never propagating the exception to its caller. -/
theorem C1_retry_amended {α ρ : Type} (op : Nat → Except String α)
    (bulkOp : Nat → Except String (List InsertResult))
    (records : List ρ) (max_retries : Nat) :
    (∀ N a, 1 ≤ N → N ≤ max_retries + 1 →
      (∀ i, i + 1 < N → ∃ e, op i = .error e) → op (N - 1) = .ok a →
      retry_salesforce_operation op max_retries = .ok a ∧
      retryInvocations op max_retries = N) ∧
    (∀ errf : Nat → String, (∀ i, op i = .error (errf i)) →
      retry_salesforce_operation op max_retries = .error (errf max_retries) ∧
      retryInvocations op max_retries = max_retries + 1) ∧
    (∀ N results, 1 ≤ N → N ≤ max_retries + 1 →
      (∀ i, i + 1 < N → ∃ e, bulkOp i = .error e) → bulkOp (N - 1) = .ok results →
      safe_bulk_insert bulkOp records max_retries = results) ∧
    (∀ errf : Nat → String, (∀ i, bulkOp i = .error (errf i)) →
      safe_bulk_insert bulkOp records max_retries =
        records.map (fun _ => ⟨false, none, [errf max_retries]⟩)) := by
  have main : ∀ {β : Type} (f : Nat → Except String β) (N : Nat) (b : β), 1 ≤ N →
      N ≤ max_retries + 1 →
      (∀ i, i + 1 < N → ∃ e, f i = .error e) → f (N - 1) = .ok b →
      retryAux f 0 max_retries = (.ok b, N) := by
    intro β f N b h1 h2 hfail hok
    have := retryAux_first_success f b (N - 1) max_retries 0 (by omega)
      (fun i hi => by simpa using hfail i (by omega))
      (by simpa using hok)
    simpa [Nat.sub_add_cancel h1] using this
  refine ⟨?_, ?_, ?_, ?_⟩
  · intro N a h1 h2 hfail hok
    have h := main op N a h1 h2 hfail hok
    constructor
    · simp [retry_salesforce_operation, h]
    · simp [retryInvocations, h]
  · intro errf hop
    have h := retryAux_all_fail op errf hop max_retries 0
    simp only [Nat.zero_add] at h
    constructor
    · simp [retry_salesforce_operation, h]
    · simp [retryInvocations, h]
  · intro N results h1 h2 hfail hok
    have h := main bulkOp N results h1 h2 hfail hok
    simp [safe_bulk_insert, retry_salesforce_operation, h]
  · intro errf hop
    have h := retryAux_all_fail bulkOp errf hop max_retries 0
    simp only [Nat.zero_add] at h
    simp [safe_bulk_insert, retry_salesforce_operation, h]

/-- C1 amended witness: the amended retry behaviour at concrete
inputs — an operation failing once then succeeding, with
max_retries = 3, returns the success after exactly 2 invocations, and
an always-failing bulk operation yields one Failed result per record
carrying the exception message. -/
theorem C1_retry_amended_witness :
    (retry_salesforce_operation (fun i => if i = 0 then .error "e0" else .ok 42) 3 = .ok 42 ∧
     retryInvocations (fun i => if i = 0 then (.error "e0" : Except String Nat) else .ok 42) 3 = 2) ∧
    safe_bulk_insert (fun _ => .error "boom") [0, 1] 3 =
      [⟨false, none, ["boom"]⟩, ⟨false, none, ["boom"]⟩] := by
  constructor
  · exact (C1_retry_amended (fun i => if i = 0 then .error "e0" else .ok 42)
      (fun _ => .error "boom") ([0, 1] : List Nat) 3).1 2 42 (by omega) (by omega)
      (fun i hi => ⟨"e0", by have h : i = 0 := by omega
                             subst h
                             rfl⟩)
      rfl
  · exact ((C1_retry_amended (fun i => (.error "x" : Except String Nat))
      (fun _ => .error "boom") ([0, 1] : List Nat) 3).2.2.2) (fun _ => "boom")
      (fun _ => rfl)

/- ===================================================================
   Activity import: src/activity_import2.py.
   A Python dict with string keys and possibly-None values is
   modelled as an association list `List (String × Option String)`
   with in-place overwrite on existing keys (`dictSet`); a source
   record is modelled as the function `String -> Option String`
   returned by `.get` (absent and None are identified, which is
   exactly how lines 70 and 89 treat them); a CSV mapping-row cell is
   `Option String`, `none` standing for a missing or empty cell (both
   are falsy at lines 77-83 and 191).
   =================================================================== -/

def dictSet : List (String × Option String) → String → Option String →
    List (String × Option String)
  | [], k, v => [(k, v)]
  | (k0, v0) :: rest, k, v =>
    if k0 = k then (k0, v) :: rest else (k0, v0) :: dictSet rest k v

def dictGet : List (String × Option String) → String → Option (Option String)
  | [], _ => none
  | (k0, v0) :: rest, k => if k0 = k then some v0 else dictGet rest k

theorem dictSet_dictGet (d : List (String × Option String)) (k k2 : String)
    (v : Option String) :
    dictGet (dictSet d k2 v) k = if k2 = k then some v else dictGet d k := by
  induction d with
  | nil => by_cases h : k2 = k <;> simp [dictSet, dictGet, h]
  | cons p rest ih =>
    obtain ⟨k0, v0⟩ := p
    by_cases h0 : k0 = k2
    · subst h0
      by_cases h : k0 = k <;> simp [dictSet, dictGet, h]
    · by_cases h : k0 = k
      · subst h
        have h2 : ¬k2 = k0 := fun he => h0 he.symm
        simp [dictSet, h0, dictGet, h2]
      · simp [dictSet, h0, dictGet, h, ih]

theorem dictSet_ne_nil (d : List (String × Option String)) (k : String)
    (v : Option String) : dictSet d k v ≠ [] := by
  cases d with
  | nil => simp [dictSet]
  | cons p rest =>
    obtain ⟨k0, v0⟩ := p
    by_cases h : k0 = k <;> simp [dictSet, h]

/-- One row of the activity mapping CSV (task_export.csv), as used by
`import_activities`: Source_Activity_Id, Source_WhatId, Target_WhatId,
Target_WhoId. -/
structure MappingRow where
  source_id : String
  source_what : Option String
  target_what : Option String
  target_who : Option String
deriving Repr, DecidableEq

/-- `build_record` (activity_import2.py lines 61-102). Copies every
allow-listed field present on the source record, redirecting the
source Id into Card_Legacy_Id__c; overrides WhatId/WhoId with the
mapped target parents when present; populates Request__c for Task
records whose Source_WhatId has the a19 prefix; remaps OwnerId; and
sets RecordTypeId when resolution succeeds (`record_type_id = none`
models the caught-exception branch of lines 93-100). The function is
total: every input yields a record. -/
def copyFieldStep (source_record : String → Option String)
    (rec : List (String × Option String)) (field : String) :
    List (String × Option String) :=
  if field = "Id" then dictSet rec "Card_Legacy_Id__c" (source_record "Id")
  else match source_record field with
    | some v => dictSet rec field (some v)
    | none => rec

/-- Lines 73-80 of activity_import2.py: override WhatId/WhoId with the
mapped target parent ids when those cells are present (truthy). -/
def stageParents (mapping_row : MappingRow) (record : List (String × Option String)) :
    List (String × Option String) :=
  let record := match mapping_row.target_what with
    | some w => dictSet record "WhatId" (some w)
    | none => record
  match mapping_row.target_who with
  | some w => dictSet record "WhoId" (some w)
  | none => record

/-- Lines 82-85: populate Request__c for Task records whose
Source_WhatId carries the a19 key prefix. -/
def stageRequest (object_name : String) (mapping_row : MappingRow)
    (record : List (String × Option String)) : List (String × Option String) :=
  if object_name = "Task" then
    match mapping_row.source_what, mapping_row.target_what with
    | some sw, some tw =>
      if sw.startsWith "a19" then dictSet record "Request__c" (some tw) else record
    | _, _ => record
  else record

/-- Lines 87-90: remap OwnerId through the owner mapping. -/
def stageOwner (source_record owner_mappings : String → Option String)
    (record : List (String × Option String)) : List (String × Option String) :=
  match source_record "OwnerId" with
  | some src_owner =>
    match owner_mappings src_owner with
    | some tgt => dictSet record "OwnerId" (some tgt)
    | none => record
  | none => record

/-- Lines 92-100: set RecordTypeId when resolution succeeded (`none`
models the caught exception, which leaves the record unchanged). -/
def stageRecordType (record_type_id : Option String)
    (record : List (String × Option String)) : List (String × Option String) :=
  match record_type_id with
  | some rt => dictSet record "RecordTypeId" (some rt)
  | none => record

def build_record (source_record : String → Option String)
    (mapping_row : MappingRow) (valid_fields : List String)
    (object_name : String) (owner_mappings : String → Option String)
    (record_type_id : Option String) : List (String × Option String) :=
  stageRecordType record_type_id
    (stageOwner source_record owner_mappings
      (stageRequest object_name mapping_row
        (stageParents mapping_row
          (valid_fields.foldl (copyFieldStep source_record) []))))

/-- One row of the task_import_log.csv outcome log written by
`import_activities` (lines 183-236). -/
structure LogRow where
  source_activity_id : String
  target_activity_id : Option String
  success : Bool
  errors : String
deriving Repr, DecidableEq

/-- The record-preparation loop of `import_activities`
(activity_import2.py lines 177-210): accumulates the records to
insert and the log rows for skipped units, in input order. -/
def prepStep (source_map : String → Option (String → Option String))
    (valid_fields : List String) (object_name : String)
    (owner_mappings : String → Option String) (record_type_id : Option String)
    (st : List (List (String × Option String)) × List LogRow) (m : MappingRow) :
    List (List (String × Option String)) × List LogRow :=
  match source_map m.source_id with
  | none => (st.1, st.2 ++ [⟨m.source_id, none, false, "Source record not found"⟩])
  | some src =>
    match m.target_what, m.target_who with
    | none, none =>
      (st.1, st.2 ++ [⟨m.source_id, none, false, "Skipped: No Target_WhatId or Target_WhoId"⟩])
    | _, _ =>
      let record := build_record src m valid_fields object_name owner_mappings record_type_id
      if record = [] then
        (st.1, st.2 ++ [⟨m.source_id, none, false, "Record build failed"⟩])
      else
        (st.1 ++ [record], st.2)

/-- `import_activities` (activity_import2.py lines 153-241), reduced
to the log it produces: runs the preparation loop, submits the
prepared records (`bulkResults` models the target-org bulk insert,
one result per submitted record), then appends one log row per
element of `zip(mappings, results)` — the zip of the FULL mapping
list with the results of only the non-skipped records (lines
230-236). -/
def import_activities_logs (mappings : List MappingRow)
    (source_map : String → Option (String → Option String))
    (valid_fields : List String) (object_name : String)
    (owner_mappings : String → Option String) (record_type_id : Option String)
    (bulkResults : List (List (String × Option String)) → List InsertResult) :
    List LogRow :=
  let st := mappings.foldl
    (prepStep source_map valid_fields object_name owner_mappings record_type_id) ([], [])
  let results := bulkResults st.1
  st.2 ++ (List.zip mappings results).map (fun p =>
    ⟨p.1.source_id, if p.2.success then p.2.id else none, p.2.success,
      if p.2.success then "" else String.intercalate "; " p.2.errors⟩)

/-- TASK_FIELDS from src/activity_config.py lines 4-9. -/
def TASK_FIELDS : List String :=
  ["Id", "WhoId", "WhatId", "Subject", "ActivityDate", "Status", "Priority",
   "Description", "Type", "IsReminderSet", "IsRecurrence", "TaskSubtype",
   "OPX_Start_Date__c", "Task_Complete_Date__c", "Task_Type__c", "Request__c",
   "CTO_Flow__c", "OwnerId"]

/- Concrete inputs for the two-activity end-to-end scenario of the
spec: A1 has a resolvable parent (Target_WhatId = T1), A2 has none.
The target-org bulk insert is modelled as succeeding with new id NEW1
for every submitted record. -/

def srcA1 : String → Option String := fun f => if f = "Id" then some "A1" else none

def srcA2 : String → Option String := fun f => if f = "Id" then some "A2" else none

def rowA1 : MappingRow := ⟨"A1", some "P1", some "T1", none⟩

def rowA2 : MappingRow := ⟨"A2", some "P2", none, none⟩

def srcMapC2 : String → Option (String → Option String) := fun sid =>
  if sid = "A1" then some srcA1 else if sid = "A2" then some srcA2 else none

def bulkC2 : List (List (String × Option String)) → List InsertResult :=
  fun records => records.map (fun _ => ⟨true, some "NEW1", []⟩)

/-- C2: on the spec scenario run in the order [A2 (unresolvable), A1
(resolvable)], the produced log is NOT one correctly-attributed row
per unit: because line 230 zips the FULL mapping list with the insert
results of only the non-skipped records, A2 receives two rows — its
Skipped row and a Success row carrying A1's newly inserted id NEW1 —
while A1 receives no row at all. This directly contradicts the
claimed per-unit attribution regardless of input order. -/
theorem C2_zip_misattribution :
    import_activities_logs [rowA2, rowA1] srcMapC2 TASK_FIELDS "Task"
        (fun _ => none) none bulkC2 =
      [⟨"A2", none, false, "Skipped: No Target_WhatId or Target_WhoId"⟩,
       ⟨"A2", some "NEW1", true, ""⟩] ∧
    ∀ r ∈ import_activities_logs [rowA2, rowA1] srcMapC2 TASK_FIELDS "Task"
        (fun _ => none) none bulkC2, r.source_activity_id ≠ "A1" := by
  have h : import_activities_logs [rowA2, rowA1] srcMapC2 TASK_FIELDS "Task"
      (fun _ => none) none bulkC2 =
      [⟨"A2", none, false, "Skipped: No Target_WhatId or Target_WhoId"⟩,
       ⟨"A2", some "NEW1", true, ""⟩] := rfl
  refine ⟨h, ?_⟩
  rw [h]
  intro r hr
  rcases List.mem_cons.mp hr with hr | hr
  · subst hr; simp
  · rcases List.mem_cons.mp hr with hr | hr
    · subst hr; simp
    · cases hr

/-- C8 counterexample: on a mapping row whose required foreign keys
(Target_WhatId, Target_WhoId) are both absent, `build_record` does NOT
return null — it unconditionally returns a payload (here carrying the
legacy id). The skip of such rows happens in the caller
(activity_import2.py lines 191-198) BEFORE `build_record` is invoked,
not through a null return of the build step as the claim states. -/
theorem C8_counterexample :
    build_record srcA2 rowA2 TASK_FIELDS "Task" (fun _ => none) none =
      [("Card_Legacy_Id__c", some "A2")] ∧
    build_record srcA2 rowA2 TASK_FIELDS "Task" (fun _ => none) none ≠ [] := by
  have h : build_record srcA2 rowA2 TASK_FIELDS "Task" (fun _ => none) none =
      [("Card_Legacy_Id__c", some "A2")] := rfl
  refine ⟨h, ?_⟩
  rw [h]
  simp

theorem copyFold_keys (s : String → Option String) (fields : List String) :
    ∀ (init : List (String × Option String)) (k : String),
      dictGet (fields.foldl (copyFieldStep s) init) k ≠ none →
      dictGet init k ≠ none ∨ (k ∈ fields ∧ k ≠ "Id") ∨ k = "Card_Legacy_Id__c" := by
  induction fields with
  | nil => intro init k h; exact Or.inl h
  | cons f rest ih =>
    intro init k h
    simp only [List.foldl_cons] at h
    rcases ih (copyFieldStep s init f) k h with h2 | h2 | h2
    · unfold copyFieldStep at h2
      by_cases hf : f = "Id"
      · simp only [hf, if_true] at h2
        rw [dictSet_dictGet] at h2
        by_cases hk : "Card_Legacy_Id__c" = k
        · exact Or.inr (Or.inr hk.symm)
        · simp only [hk, if_false] at h2
          exact Or.inl h2
      · simp only [hf, if_false] at h2
        cases hs : s f with
        | none => rw [hs] at h2; exact Or.inl h2
        | some v =>
          rw [hs] at h2
          rw [dictSet_dictGet] at h2
          by_cases hk : f = k
          · subst hk
            exact Or.inr (Or.inl ⟨List.mem_cons_self _ _, hf⟩)
          · simp only [hk, if_false] at h2
            exact Or.inl h2
    · exact Or.inr (Or.inl ⟨List.mem_cons_of_mem f h2.1, h2.2⟩)
    · exact Or.inr (Or.inr h2)

theorem copyFold_legacy (s : String → Option String) (fields : List String) :
    ∀ init : List (String × Option String),
      "Card_Legacy_Id__c" ∉ fields →
      (("Id" ∈ fields →
        dictGet (fields.foldl (copyFieldStep s) init) "Card_Legacy_Id__c" =
          some (s "Id")) ∧
       ("Id" ∉ fields →
        dictGet (fields.foldl (copyFieldStep s) init) "Card_Legacy_Id__c" =
          dictGet init "Card_Legacy_Id__c")) := by
  induction fields with
  | nil => intro init _; exact ⟨fun h => absurd h (List.not_mem_nil _), fun _ => rfl⟩
  | cons f rest ih =>
    intro init hcli
    have hcli_f : f ≠ "Card_Legacy_Id__c" := fun he => hcli (he ▸ List.mem_cons_self f rest)
    have hcli_rest : "Card_Legacy_Id__c" ∉ rest := fun hr => hcli (List.mem_cons_of_mem f hr)
    by_cases hf : f = "Id"
    · subst hf
      constructor
      · intro _
        simp only [List.foldl_cons]
        have hstep : copyFieldStep s init "Id" = dictSet init "Card_Legacy_Id__c" (s "Id") := by
          unfold copyFieldStep; simp
        rw [hstep]
        by_cases hid : "Id" ∈ rest
        · exact (ih _ hcli_rest).1 hid
        · rw [(ih _ hcli_rest).2 hid, dictSet_dictGet]
          simp
      · intro h
        exact absurd (List.mem_cons_self _ _) h
    · have hstep : dictGet (copyFieldStep s init f) "Card_Legacy_Id__c" =
          dictGet init "Card_Legacy_Id__c" := by
        unfold copyFieldStep
        simp only [hf, if_false]
        cases hs : s f with
        | none => rfl
        | some v =>
          rw [dictSet_dictGet]
          simp [hcli_f]
      constructor
      · intro hid
        rcases List.mem_cons.mp hid with hid | hid
        · exact absurd hid.symm hf
        · simp only [List.foldl_cons]
          exact (ih _ hcli_rest).1 hid
      · intro hid
        have hid_rest : "Id" ∉ rest := fun hr => hid (List.mem_cons_of_mem f hr)
        simp only [List.foldl_cons]
        rw [(ih _ hcli_rest).2 hid_rest, hstep]

theorem dictGet_dictSet_ne (rec : List (String × Option String)) (K k : String)
    (v : Option String) (h : K ≠ k) : dictGet (dictSet rec K v) k = dictGet rec k := by
  rw [dictSet_dictGet]
  simp [h]

theorem stageParents_keys (row : MappingRow) (rec : List (String × Option String))
    (k : String) (h : dictGet (stageParents row rec) k ≠ none) :
    dictGet rec k ≠ none ∨ k = "WhatId" ∨ k = "WhoId" := by
  unfold stageParents at h
  revert h
  rcases row.target_who with _ | w2 <;> rcases row.target_what with _ | w1 <;>
    intro h
  · exact Or.inl h
  · by_cases hk : "WhatId" = k
    · exact Or.inr (Or.inl hk.symm)
    · rw [dictGet_dictSet_ne _ _ _ _ hk] at h
      exact Or.inl h
  · by_cases hk : "WhoId" = k
    · exact Or.inr (Or.inr hk.symm)
    · rw [dictGet_dictSet_ne _ _ _ _ hk] at h
      exact Or.inl h
  · by_cases hk2 : "WhoId" = k
    · exact Or.inr (Or.inr hk2.symm)
    · rw [dictGet_dictSet_ne _ _ _ _ hk2] at h
      by_cases hk1 : "WhatId" = k
      · exact Or.inr (Or.inl hk1.symm)
      · rw [dictGet_dictSet_ne _ _ _ _ hk1] at h
        exact Or.inl h

theorem stageParents_preserve (row : MappingRow) (rec : List (String × Option String))
    (k : String) (h1 : k ≠ "WhatId") (h2 : k ≠ "WhoId") :
    dictGet (stageParents row rec) k = dictGet rec k := by
  unfold stageParents
  rcases row.target_who with _ | w2 <;> rcases row.target_what with _ | w1
  · rfl
  · exact dictGet_dictSet_ne _ _ _ _ (fun he => h1 he.symm)
  · exact dictGet_dictSet_ne _ _ _ _ (fun he => h2 he.symm)
  · rw [dictGet_dictSet_ne _ _ _ _ (fun he => h2 he.symm)]
    exact dictGet_dictSet_ne _ _ _ _ (fun he => h1 he.symm)

theorem stageRequest_keys (objname : String) (row : MappingRow)
    (rec : List (String × Option String)) (k : String)
    (h : dictGet (stageRequest objname row rec) k ≠ none) :
    dictGet rec k ≠ none ∨ k = "Request__c" := by
  unfold stageRequest at h
  by_cases ho : objname = "Task"
  · simp only [ho, if_true] at h
    revert h
    rcases row.source_what with _ | sw <;> rcases row.target_what with _ | tw <;>
      intro h
    · exact Or.inl h
    · exact Or.inl h
    · exact Or.inl h
    · by_cases hpre : sw.startsWith "a19"
      · simp only [hpre, if_true] at h
        by_cases hk : "Request__c" = k
        · exact Or.inr hk.symm
        · rw [dictGet_dictSet_ne _ _ _ _ hk] at h
          exact Or.inl h
      · simp only [hpre, if_false] at h
        exact Or.inl h
  · simp only [ho, if_false] at h
    exact Or.inl h

theorem stageRequest_preserve (objname : String) (row : MappingRow)
    (rec : List (String × Option String)) (k : String) (h1 : k ≠ "Request__c") :
    dictGet (stageRequest objname row rec) k = dictGet rec k := by
  unfold stageRequest
  by_cases ho : objname = "Task"
  · simp only [ho, if_true]
    rcases row.source_what with _ | sw <;> rcases row.target_what with _ | tw
    · rfl
    · rfl
    · rfl
    · by_cases hpre : sw.startsWith "a19"
      · simp only [hpre, if_true]
        exact dictGet_dictSet_ne _ _ _ _ (fun he => h1 he.symm)
      · simp [hpre]
  · simp only [ho, if_false]

theorem stageOwner_keys (s owner : String → Option String)
    (rec : List (String × Option String)) (k : String)
    (h : dictGet (stageOwner s owner rec) k ≠ none) :
    dictGet rec k ≠ none ∨ k = "OwnerId" := by
  unfold stageOwner at h
  rcases hso : s "OwnerId" with _ | so
  · simp only [hso] at h
    exact Or.inl h
  · simp only [hso] at h
    rcases hot : owner so with _ | t
    · simp only [hot] at h
      exact Or.inl h
    · simp only [hot] at h
      by_cases hk : "OwnerId" = k
      · exact Or.inr hk.symm
      · rw [dictGet_dictSet_ne _ _ _ _ hk] at h
        exact Or.inl h

theorem stageOwner_preserve (s owner : String → Option String)
    (rec : List (String × Option String)) (k : String) (h1 : k ≠ "OwnerId") :
    dictGet (stageOwner s owner rec) k = dictGet rec k := by
  unfold stageOwner
  rcases hso : s "OwnerId" with _ | so
  · simp only [hso]
  · simp only [hso]
    rcases hot : owner so with _ | t
    · simp only [hot]
    · simp only [hot]
      exact dictGet_dictSet_ne _ _ _ _ (fun he => h1 he.symm)

theorem stageRecordType_keys (rt : Option String)
    (rec : List (String × Option String)) (k : String)
    (h : dictGet (stageRecordType rt rec) k ≠ none) :
    dictGet rec k ≠ none ∨ k = "RecordTypeId" := by
  unfold stageRecordType at h
  revert h
  rcases rt with _ | r
  · exact fun h => Or.inl h
  · intro h
    by_cases hk : "RecordTypeId" = k
    · exact Or.inr hk.symm
    · rw [dictGet_dictSet_ne _ _ _ _ hk] at h
      exact Or.inl h

theorem stageRecordType_preserve (rt : Option String)
    (rec : List (String × Option String)) (k : String) (h1 : k ≠ "RecordTypeId") :
    dictGet (stageRecordType rt rec) k = dictGet rec k := by
  unfold stageRecordType
  rcases rt with _ | r
  · rfl
  · exact dictGet_dictSet_ne _ _ _ _ (fun he => h1 he.symm)

theorem build_record_keys (s : String → Option String) (row : MappingRow)
    (vf : List String) (objname : String) (owner : String → Option String)
    (rt : Option String) (k : String)
    (h : dictGet (build_record s row vf objname owner rt) k ≠ none) :
    (k ∈ vf ∧ k ≠ "Id") ∨
      k ∈ (["Card_Legacy_Id__c", "WhatId", "WhoId", "Request__c", "OwnerId",
            "RecordTypeId"] : List String) := by
  unfold build_record at h
  rcases stageRecordType_keys _ _ _ h with h | h
  on_goal 2 => subst h; simp
  rcases stageOwner_keys _ _ _ _ h with h | h
  on_goal 2 => subst h; simp
  rcases stageRequest_keys _ _ _ _ h with h | h
  on_goal 2 => subst h; simp
  rcases stageParents_keys _ _ _ h with h | h | h
  on_goal 2 => subst h; simp
  on_goal 2 => subst h; simp
  rcases copyFold_keys s vf [] k h with h | h | h
  · simp [dictGet] at h
  · exact Or.inl h
  · subst h; simp

theorem build_record_Id_none (s : String → Option String) (row : MappingRow)
    (vf : List String) (objname : String) (owner : String → Option String)
    (rt : Option String) :
    dictGet (build_record s row vf objname owner rt) "Id" = none := by
  by_contra h
  rcases build_record_keys s row vf objname owner rt "Id" h with h2 | h2
  · exact h2.2 rfl
  · simp at h2

theorem build_record_legacy (s : String → Option String) (row : MappingRow)
    (vf : List String) (objname : String) (owner : String → Option String)
    (rt : Option String) (hid : "Id" ∈ vf) (hcli : "Card_Legacy_Id__c" ∉ vf) :
    dictGet (build_record s row vf objname owner rt) "Card_Legacy_Id__c" =
      some (s "Id") := by
  unfold build_record
  rw [stageRecordType_preserve _ _ _ (by simp),
      stageOwner_preserve _ _ _ _ (by simp),
      stageRequest_preserve _ _ _ _ (by simp),
      stageParents_preserve _ _ _ (by simp) (by simp)]
  exact (copyFold_legacy s vf [] hcli).1 hid

theorem prep_inserts_mem (source_map : String → Option (String → Option String))
    (vf : List String) (objname : String) (owner : String → Option String)
    (rt : Option String) (mappings : List MappingRow) :
    ∀ init : List (List (String × Option String)) × List LogRow,
      ∀ rec ∈ (mappings.foldl (prepStep source_map vf objname owner rt) init).1,
        rec ∈ init.1 ∨
        ∃ m src, m ∈ mappings ∧ source_map m.source_id = some src ∧
          (m.target_what ≠ none ∨ m.target_who ≠ none) ∧
          rec = build_record src m vf objname owner rt := by
  induction mappings with
  | nil => intro init rec hrec; exact Or.inl hrec
  | cons m0 rest ih =>
    intro init rec hrec
    simp only [List.foldl_cons] at hrec
    rcases ih (prepStep source_map vf objname owner rt init m0) rec hrec with h | h
    · unfold prepStep at h
      rcases hsm : source_map m0.source_id with _ | src
      · simp only [hsm] at h
        exact Or.inl h
      · simp only [hsm] at h
        rcases hw : m0.target_what with _ | w1 <;> rcases hwho : m0.target_who with _ | w2
        · simp only [hw, hwho] at h
          exact Or.inl h
        all_goals {
          simp only [hw, hwho] at h
          by_cases hb : build_record src m0 vf objname owner rt = []
          · simp only [hb, if_true] at h
            exact Or.inl h
          · simp only [hb, if_false] at h
            rcases List.mem_append.mp h with h | h
            · exact Or.inl h
            · rcases List.mem_singleton.mp h with rfl
              refine Or.inr ⟨m0, src, List.mem_cons_self _ _, hsm, ?_, rfl⟩
              first
                | exact Or.inl (by rw [hw]; exact Option.some_ne_none _)
                | exact Or.inr (by rw [hwho]; exact Option.some_ne_none _)
        }
    · obtain ⟨m, src, hm, h2⟩ := h
      exact Or.inr ⟨m, src, List.mem_cons_of_mem _ hm, h2⟩

theorem prep_logs_mono (source_map : String → Option (String → Option String))
    (vf : List String) (objname : String) (owner : String → Option String)
    (rt : Option String) (mappings : List MappingRow) :
    ∀ init : List (List (String × Option String)) × List LogRow,
      ∀ l ∈ init.2,
        l ∈ (mappings.foldl (prepStep source_map vf objname owner rt) init).2 := by
  induction mappings with
  | nil => intro init l hl; exact hl
  | cons m0 rest ih =>
    intro init l hl
    simp only [List.foldl_cons]
    apply ih
    unfold prepStep
    rcases hsm : source_map m0.source_id with _ | src
    · exact List.mem_append_left _ hl
    · rcases hw : m0.target_what with _ | w1 <;> rcases hwho : m0.target_who with _ | w2
      · exact List.mem_append_left _ hl
      all_goals {
        by_cases hb : build_record src m0 vf objname owner rt = []
        · simp only [hb, if_true]
          exact List.mem_append_left _ hl
        · simp only [hb, if_false]
          exact hl
      }

theorem prep_skip_logged (source_map : String → Option (String → Option String))
    (vf : List String) (objname : String) (owner : String → Option String)
    (rt : Option String) (mappings : List MappingRow) :
    ∀ init : List (List (String × Option String)) × List LogRow,
      ∀ m ∈ mappings, ∀ src, source_map m.source_id = some src →
        m.target_what = none → m.target_who = none →
        (⟨m.source_id, none, false, "Skipped: No Target_WhatId or Target_WhoId"⟩ : LogRow) ∈
          (mappings.foldl (prepStep source_map vf objname owner rt) init).2 := by
  induction mappings with
  | nil => intro init m hm; cases hm
  | cons m0 rest ih =>
    intro init m hm src hsm hw hwho
    simp only [List.foldl_cons]
    rcases List.mem_cons.mp hm with hm | hm
    · subst hm
      apply prep_logs_mono
      unfold prepStep
      simp only [hsm, hw, hwho]
      exact List.mem_append_right _ (List.mem_singleton.mpr rfl)
    · exact ih _ m hm src hsm hw hwho

/-- C8 amended: `build_record` never returns null — the
missing-foreign-key skip is performed by the CALLER
(activity_import2.py lines 191-198) before build is invoked, so that
(1) every record submitted for insert by the preparation loop comes
from a mapping row whose source record was fetched and whose
Target_WhatId or Target_WhoId is present, and rows with both parent
keys absent never reach an insert; (2) a built payload only carries
allow-listed fields other than Id, plus the remapped foreign-key
fields WhatId/WhoId/Request__c/OwnerId, the legacy-id field
Card_Legacy_Id__c and RecordTypeId; (3) the field Id itself never
appears in a payload; (4) the source record's own Id value is carried
in the dedicated legacy-id field Card_Legacy_Id__c. -/
theorem C8_transform_amended (source_map : String → Option (String → Option String))
    (vf : List String) (objname : String) (owner : String → Option String)
    (rt : Option String) (mappings : List MappingRow) :
    (∀ rec ∈ (mappings.foldl (prepStep source_map vf objname owner rt) ([], [])).1,
        ∃ m src, m ∈ mappings ∧ source_map m.source_id = some src ∧
          (m.target_what ≠ none ∨ m.target_who ≠ none) ∧
          rec = build_record src m vf objname owner rt) ∧
    (∀ (s : String → Option String) (row : MappingRow) (k : String),
        dictGet (build_record s row vf objname owner rt) k ≠ none →
        (k ∈ vf ∧ k ≠ "Id") ∨
          k ∈ (["Card_Legacy_Id__c", "WhatId", "WhoId", "Request__c", "OwnerId",
                "RecordTypeId"] : List String)) ∧
    (∀ (s : String → Option String) (row : MappingRow),
        dictGet (build_record s row vf objname owner rt) "Id" = none) ∧
    (∀ (s : String → Option String) (row : MappingRow),
        "Id" ∈ vf → "Card_Legacy_Id__c" ∉ vf →
        dictGet (build_record s row vf objname owner rt) "Card_Legacy_Id__c" =
          some (s "Id")) := by
  refine ⟨?_, ?_, ?_, ?_⟩
  · intro rec hrec
    rcases prep_inserts_mem source_map vf objname owner rt mappings ([], []) rec hrec
      with h | h
    · simp at h
    · exact h
  · intro s row k hk
    exact build_record_keys s row vf objname owner rt k hk
  · intro s row
    exact build_record_Id_none s row vf objname owner rt
  · intro s row hid hcli
    exact build_record_legacy s row vf objname owner rt hid hcli

/-- C8 amended witness: the amended transform statement applied at the
concrete scenario inputs — A1 builds a payload whose only submitted
provenance is the A1 row with a present Target_WhatId, with no Id
field and with the source Id carried in Card_Legacy_Id__c. -/
theorem C8_transform_amended_witness :
    (∃ m src, m ∈ [rowA1] ∧ srcMapC2 m.source_id = some src ∧
       (m.target_what ≠ none ∨ m.target_who ≠ none) ∧
       build_record srcA1 rowA1 TASK_FIELDS "Task" (fun _ => none) none =
         build_record src m TASK_FIELDS "Task" (fun _ => none) none) ∧
    dictGet (build_record srcA1 rowA1 TASK_FIELDS "Task" (fun _ => none) none)
      "Id" = none ∧
    dictGet (build_record srcA1 rowA1 TASK_FIELDS "Task" (fun _ => none) none)
      "Card_Legacy_Id__c" = some (srcA1 "Id") := by
  refine ⟨?_, ?_, ?_⟩
  · refine (C8_transform_amended srcMapC2 TASK_FIELDS "Task" (fun _ => none) none
      [rowA1]).1 (build_record srcA1 rowA1 TASK_FIELDS "Task" (fun _ => none) none) ?_
    have h : (([rowA1] : List MappingRow).foldl
        (prepStep srcMapC2 TASK_FIELDS "Task" (fun _ => none) none) ([], [])).1 =
        [build_record srcA1 rowA1 TASK_FIELDS "Task" (fun _ => none) none] := rfl
    rw [h]
    exact List.mem_singleton.mpr rfl
  · exact (C8_transform_amended srcMapC2 TASK_FIELDS "Task" (fun _ => none) none
      [rowA1]).2.2.1 srcA1 rowA1
  · exact (C8_transform_amended srcMapC2 TASK_FIELDS "Task" (fun _ => none) none
      [rowA1]).2.2.2 srcA1 rowA1 (by decide) (by decide)

/- ===================================================================
   Attachment migration: `migrate_attachments` in
   src/reletedDataHelper.py lines 91-189, reduced to its per-attachment
   loop (lines 130-187). An attachment whose ParentId has no entry in
   `activity_map` is logged with Status "Failed" and error
   "No target parent mapping" and processing continues (lines 133-143);
   otherwise the binary is downloaded and the record created in the
   target org — `createRes` models the combined download+create remote
   outcome. The first component of the result is the list of
   attachments actually submitted to the target org.
   =================================================================== -/

structure Attachment where
  id : String
  name : String
  parentId : String
deriving Repr, DecidableEq

/-- One row of the results_out audit list of reletedDataHelper.py. -/
structure OutcomeRow where
  rtype : String
  sourceActivityId : Option String
  targetActivityId : Option String
  sourceRecordId : String
  targetRecordId : Option String
  status : String
  error : String
deriving Repr, DecidableEq

def attachStep (activity_map : String → Option String)
    (createRes : Attachment → Except String String)
    (st : List Attachment × List OutcomeRow) (att : Attachment) :
    List Attachment × List OutcomeRow :=
  match activity_map att.parentId with
  | none =>
    (st.1, st.2 ++ [⟨"Attachment", some att.parentId, none, att.id, none,
      "Failed", "No target parent mapping"⟩])
  | some tgt =>
    match createRes att with
    | .ok newId =>
      (st.1 ++ [att], st.2 ++ [⟨"Attachment", some att.parentId, some tgt,
        att.id, some newId, "Success", ""⟩])
    | .error e =>
      (st.1 ++ [att], st.2 ++ [⟨"Attachment", some att.parentId, some tgt,
        att.id, none, "Failed", "Attachment migration failed: " ++ e⟩])

def migrate_attachments_model (activity_map : String → Option String)
    (createRes : Attachment → Except String String) (atts : List Attachment) :
    List Attachment × List OutcomeRow :=
  atts.foldl (attachStep activity_map createRes) ([], [])

/- ===================================================================
   Feed-comment migration: `insert_feedcomments` in
   src/FeedCommentMigration.py lines 84-139, reduced to its
   preparation loop (lines 95-119): a comment whose FeedItemId has no
   entry in `feeditem_mapping`, or whose CreatedById has no entry in
   `createdBy_mappings`, is logged as
   "Skipped - Missing mapping" and not added to the insert list.
   =================================================================== -/

structure FeedCommentRec where
  id : String
  commentBody : String
  createdById : String
  createdDate : String
  feedItemId : String
  relatedRecordId : Option String
deriving Repr, DecidableEq

/-- The new-comment payload of lines 105-113. -/
structure NewComment where
  feedItemId : String
  commentBody : String
  createdById : String
  createdDate : String
  relatedRecordId : Option String
deriving Repr, DecidableEq

/-- One entry of the inserted_ids log tuples
(src id, tgt id, src feed item, tgt feed item, status). -/
structure FCLogEntry where
  srcId : String
  tgtId : Option String
  srcFeedItem : String
  tgtFeedItem : Option String
  status : String
deriving Repr, DecidableEq

def fcPrepStep (feeditem_mapping createdBy_mappings
    relatedId_mappings : String → Option String)
    (st : List (FeedCommentRec × NewComment) × List FCLogEntry)
    (c : FeedCommentRec) : List (FeedCommentRec × NewComment) × List FCLogEntry :=
  match createdBy_mappings c.createdById, feeditem_mapping c.feedItemId with
  | some tgt_cb, some tgt_fi =>
    let newc : NewComment :=
      ⟨tgt_fi, c.commentBody, tgt_cb, c.createdDate,
        match c.relatedRecordId with
        | some rid => relatedId_mappings rid
        | none => none⟩
    (st.1 ++ [(c, newc)], st.2)
  | _, _ =>
    (st.1, st.2 ++ [⟨c.id, none, c.feedItemId, feeditem_mapping c.feedItemId,
      "Skipped - Missing mapping"⟩])

def insert_feedcomments_prep (feeditem_mapping createdBy_mappings
    relatedId_mappings : String → Option String) (comments : List FeedCommentRec) :
    List (FeedCommentRec × NewComment) × List FCLogEntry :=
  comments.foldl
    (fcPrepStep feeditem_mapping createdBy_mappings relatedId_mappings) ([], [])

/-- C3 counterexample: in `migrate_attachments`, an attachment whose
parent has no target mapping is recorded with Status "Failed"
(error "No target parent mapping"), not with a Skipped disposition as
the claim states. -/
theorem C3_counterexample :
    (migrate_attachments_model (fun _ => none) (fun _ => .ok "X")
      [⟨"ATT1", "f.txt", "P1"⟩]).2 =
      [⟨"Attachment", some "P1", none, "ATT1", none, "Failed",
        "No target parent mapping"⟩] ∧
    ∀ row ∈ (migrate_attachments_model (fun _ => none) (fun _ => .ok "X")
      [⟨"ATT1", "f.txt", "P1"⟩]).2, row.status ≠ "Skipped" := by
  refine ⟨rfl, ?_⟩
  intro row hrow
  have h : (migrate_attachments_model (fun _ => none) (fun _ => .ok "X")
      [⟨"ATT1", "f.txt", "P1"⟩]).2 =
      [⟨"Attachment", some "P1", none, "ATT1", none, "Failed",
        "No target parent mapping"⟩] := rfl
  rw [h] at hrow
  rcases List.mem_singleton.mp hrow with rfl
  simp

theorem attach_inserts_eq (activity_map : String → Option String)
    (createRes : Attachment → Except String String) (atts : List Attachment) :
    ∀ init : List Attachment × List OutcomeRow,
      (atts.foldl (attachStep activity_map createRes) init).1 =
        init.1 ++ atts.filter (fun a => (activity_map a.parentId).isSome) := by
  induction atts with
  | nil => intro init; simp
  | cons a rest ih =>
    intro init
    simp only [List.foldl_cons]
    rw [ih]
    unfold attachStep
    rcases hm : activity_map a.parentId with _ | tgt
    · simp [List.filter_cons, hm]
    · rcases hc : createRes a with newId | e <;>
        simp [List.filter_cons, hm]

theorem attach_rows_mono (activity_map : String → Option String)
    (createRes : Attachment → Except String String) (atts : List Attachment) :
    ∀ init : List Attachment × List OutcomeRow, ∀ l ∈ init.2,
      l ∈ (atts.foldl (attachStep activity_map createRes) init).2 := by
  induction atts with
  | nil => intro init l hl; exact hl
  | cons a rest ih =>
    intro init l hl
    simp only [List.foldl_cons]
    apply ih
    unfold attachStep
    rcases hm : activity_map a.parentId with _ | tgt
    · exact List.mem_append_left _ hl
    · rcases hc : createRes a with newId | e <;> exact List.mem_append_left _ hl

theorem attach_fail_logged (activity_map : String → Option String)
    (createRes : Attachment → Except String String) (atts : List Attachment) :
    ∀ init : List Attachment × List OutcomeRow, ∀ a ∈ atts,
      activity_map a.parentId = none →
      (⟨"Attachment", some a.parentId, none, a.id, none, "Failed",
        "No target parent mapping"⟩ : OutcomeRow) ∈
        (atts.foldl (attachStep activity_map createRes) init).2 := by
  induction atts with
  | nil => intro init a ha; cases ha
  | cons a0 rest ih =>
    intro init a ha hm
    simp only [List.foldl_cons]
    rcases List.mem_cons.mp ha with ha | ha
    · subst ha
      apply attach_rows_mono
      unfold attachStep
      simp only [hm]
      exact List.mem_append_right _ (List.mem_singleton.mpr rfl)
    · exact ih _ a ha hm

theorem fc_pairs_mapped (fim cbm rim : String → Option String)
    (comments : List FeedCommentRec) :
    ∀ init : List (FeedCommentRec × NewComment) × List FCLogEntry,
      ∀ p ∈ (comments.foldl (fcPrepStep fim cbm rim) init).1,
        p ∈ init.1 ∨
          ((cbm p.1.createdById).isSome ∧ fim p.1.feedItemId = some p.2.feedItemId) := by
  induction comments with
  | nil => intro init p hp; exact Or.inl hp
  | cons c rest ih =>
    intro init p hp
    simp only [List.foldl_cons] at hp
    rcases ih _ p hp with h | h
    · unfold fcPrepStep at h
      rcases hcb : cbm c.createdById with _ | tgt_cb
      · simp only [hcb] at h
        exact Or.inl h
      · simp only [hcb] at h
        rcases hfi : fim c.feedItemId with _ | tgt_fi
        · simp only [hfi] at h
          exact Or.inl h
        · simp only [hfi] at h
          rcases List.mem_append.mp h with h | h
          · exact Or.inl h
          · rcases List.mem_singleton.mp h with rfl
            exact Or.inr ⟨by simp [hcb], by simp [hfi]⟩
    · exact Or.inr h

theorem fc_rows_mono (fim cbm rim : String → Option String)
    (comments : List FeedCommentRec) :
    ∀ init : List (FeedCommentRec × NewComment) × List FCLogEntry, ∀ l ∈ init.2,
      l ∈ (comments.foldl (fcPrepStep fim cbm rim) init).2 := by
  induction comments with
  | nil => intro init l hl; exact hl
  | cons c rest ih =>
    intro init l hl
    simp only [List.foldl_cons]
    apply ih
    unfold fcPrepStep
    rcases hcb : cbm c.createdById with _ | tgt_cb
    · exact List.mem_append_left _ hl
    · rcases hfi : fim c.feedItemId with _ | tgt_fi
      · exact List.mem_append_left _ hl
      · exact hl

theorem fc_skip_logged (fim cbm rim : String → Option String)
    (comments : List FeedCommentRec) :
    ∀ init : List (FeedCommentRec × NewComment) × List FCLogEntry,
      ∀ c ∈ comments, fim c.feedItemId = none →
      (⟨c.id, none, c.feedItemId, none, "Skipped - Missing mapping"⟩ : FCLogEntry) ∈
        (comments.foldl (fcPrepStep fim cbm rim) init).2 := by
  induction comments with
  | nil => intro init c hc; cases hc
  | cons c0 rest ih =>
    intro init c hc hfi
    simp only [List.foldl_cons]
    rcases List.mem_cons.mp hc with hc | hc
    · subst hc
      apply fc_rows_mono
      unfold fcPrepStep
      rcases hcb : cbm c.createdById with _ | tgt_cb <;> simp only [hcb, hfi] <;>
        exact List.mem_append_right _ (List.mem_singleton.mpr rfl)
    · exact ih _ c hc hfi

/-- C3 amended: in every pipeline a unit whose required parent mapping
is absent from the identity map is never included in any insert call
against the target org and is always recorded in the outcome log —
but the recorded disposition is not uniformly Skipped: the
feed-comment script marks it "Skipped - Missing mapping" and the
activity import logs "Skipped: No Target_WhatId or Target_WhoId",
while `migrate_attachments` records Status "Failed" with error
"No target parent mapping". Concretely: (1) the attachments submitted
for creation are exactly those whose parent resolves; (2) an
unresolvable attachment gets a Failed/No-target-parent-mapping row;
(3) every prepared feed-comment payload has both its feed-item and
created-by mappings present; (4) a feed comment with no feed-item
mapping gets a Skipped row; (5) every activity record submitted for
insert comes from a row with a present target parent key; (6) an
activity row with both target keys absent gets a Skipped log row. -/
theorem C3_missing_parent_amended
    (activity_map : String → Option String)
    (createRes : Attachment → Except String String) (atts : List Attachment)
    (fim cbm rim : String → Option String) (comments : List FeedCommentRec)
    (source_map : String → Option (String → Option String)) (vf : List String)
    (objname : String) (owner : String → Option String) (rt : Option String)
    (mappings : List MappingRow)
    (bulkResults : List (List (String × Option String)) → List InsertResult) :
    ((migrate_attachments_model activity_map createRes atts).1 =
        atts.filter (fun a => (activity_map a.parentId).isSome)) ∧
    (∀ a ∈ atts, activity_map a.parentId = none →
        (⟨"Attachment", some a.parentId, none, a.id, none, "Failed",
          "No target parent mapping"⟩ : OutcomeRow) ∈
          (migrate_attachments_model activity_map createRes atts).2) ∧
    (∀ p ∈ (insert_feedcomments_prep fim cbm rim comments).1,
        (cbm p.1.createdById).isSome ∧ fim p.1.feedItemId = some p.2.feedItemId) ∧
    (∀ c ∈ comments, fim c.feedItemId = none →
        (⟨c.id, none, c.feedItemId, none, "Skipped - Missing mapping"⟩ : FCLogEntry) ∈
          (insert_feedcomments_prep fim cbm rim comments).2) ∧
    (∀ rec ∈ (mappings.foldl (prepStep source_map vf objname owner rt) ([], [])).1,
        ∃ m src, m ∈ mappings ∧ source_map m.source_id = some src ∧
          (m.target_what ≠ none ∨ m.target_who ≠ none)) ∧
    (∀ m ∈ mappings, ∀ src, source_map m.source_id = some src →
        m.target_what = none → m.target_who = none →
        (⟨m.source_id, none, false,
          "Skipped: No Target_WhatId or Target_WhoId"⟩ : LogRow) ∈
          import_activities_logs mappings source_map vf objname owner rt bulkResults) := by
  refine ⟨?_, ?_, ?_, ?_, ?_, ?_⟩
  · exact attach_inserts_eq activity_map createRes atts ([], [])
  · intro a ha hm
    exact attach_fail_logged activity_map createRes atts ([], []) a ha hm
  · intro p hp
    rcases fc_pairs_mapped fim cbm rim comments ([], []) p hp with h | h
    · simp at h
    · exact h
  · intro c hc hfi
    exact fc_skip_logged fim cbm rim comments ([], []) c hc hfi
  · intro rec hrec
    rcases prep_inserts_mem source_map vf objname owner rt mappings ([], []) rec hrec
      with h | h
    · simp at h
    · obtain ⟨m, src, hm, hsm, hor, _⟩ := h
      exact ⟨m, src, hm, hsm, hor⟩
  · intro m hm src hsm hw hwho
    unfold import_activities_logs
    exact List.mem_append_left _
      (prep_skip_logged source_map vf objname owner rt mappings ([], []) m hm src
        hsm hw hwho)

/-- C3 amended witness: the amended statement evaluated at concrete
inputs — one unresolvable attachment, one feed comment with no
feed-item mapping, and the A2 activity row with both target parent
keys absent. -/
theorem C3_missing_parent_amended_witness :
    ((migrate_attachments_model (fun _ => none) (fun _ => .ok "X")
        [⟨"ATT1", "f.txt", "P1"⟩]).1 = []) ∧
    ((⟨"Attachment", some "P1", none, "ATT1", none, "Failed",
      "No target parent mapping"⟩ : OutcomeRow) ∈
      (migrate_attachments_model (fun _ => none) (fun _ => .ok "X")
        [⟨"ATT1", "f.txt", "P1"⟩]).2) ∧
    ((⟨"FC1", none, "FI1", none, "Skipped - Missing mapping"⟩ : FCLogEntry) ∈
      (insert_feedcomments_prep (fun _ => none) (fun _ => some "U1") (fun _ => none)
        [⟨"FC1", "body", "CB1", "2024-01-01", "FI1", none⟩]).2) ∧
    ((⟨"A2", none, false, "Skipped: No Target_WhatId or Target_WhoId"⟩ : LogRow) ∈
      import_activities_logs [rowA2] srcMapC2 TASK_FIELDS "Task" (fun _ => none)
        none bulkC2) := by
  have h := C3_missing_parent_amended (fun _ => none) (fun _ => .ok "X")
    [⟨"ATT1", "f.txt", "P1"⟩] (fun _ => none) (fun _ => some "U1") (fun _ => none)
    [⟨"FC1", "body", "CB1", "2024-01-01", "FI1", none⟩] srcMapC2 TASK_FIELDS
    "Task" (fun _ => none) none [rowA2] bulkC2
  refine ⟨?_, ?_, ?_, ?_⟩
  · rw [h.1]
    rfl
  · exact h.2.1 ⟨"ATT1", "f.txt", "P1"⟩ (List.mem_singleton.mpr rfl) rfl
  · exact h.2.2.2.1 ⟨"FC1", "body", "CB1", "2024-01-01", "FI1", none⟩
      (List.mem_singleton.mpr rfl) rfl
  · exact h.2.2.2.2.2 rowA2 (List.mem_singleton.mpr rfl) srcA2 rfl rfl rfl

/- ===================================================================
   File migration dedup cache: `migrate_files` in
   src/reletedDataHelper.py lines 206-525. The per-document loop
   (lines 285-415) processes each ContentDocument id: on a cache hit
   (lines 293-303) the stored target ids are reused; on a miss the
   binary migrate step — fetch the latest ContentVersion, download its
   binary, upload it creating a new target document — runs and, on
   success, caches the result (lines 388-395); on failure (no latest
   version, no valid parent, or an exception, lines 317-361 and
   397-415) nothing is cached and the loop continues. `migrateFn`
   models one execution of the migrate step for a document id
   (`none` = any of the failure paths); the second result component
   lists the document ids on which the migrate step was invoked, in
   order. The cache (`migrate_files.doc_cache`) survives across calls,
   so the request list ranges over a whole run.
   =================================================================== -/

structure DocRef where
  docId : String
  verId : String
  srcVerId : String
deriving Repr, DecidableEq

def cacheGet : List (String × DocRef) → String → Option DocRef
  | [], _ => none
  | (k0, v0) :: rest, k => if k0 = k then some v0 else cacheGet rest k

def migrate_files_docLoop (migrateFn : String → Option DocRef) :
    List String → List (String × DocRef) → List (String × DocRef) × List String
  | [], cache => (cache, [])
  | d :: ds, cache =>
    match cacheGet cache d with
    | some _ => migrate_files_docLoop migrateFn ds cache
    | none =>
      match migrateFn d with
      | some ref =>
        let res := migrate_files_docLoop migrateFn ds (cache ++ [(d, ref)])
        (res.1, d :: res.2)
      | none =>
        let res := migrate_files_docLoop migrateFn ds cache
        (res.1, d :: res.2)

theorem cacheGet_append (c e : List (String × DocRef)) (k : String) :
    cacheGet (c ++ e) k =
      match cacheGet c k with
      | some v => some v
      | none => cacheGet e k := by
  induction c with
  | nil => simp [cacheGet]
  | cons p rest ih =>
    obtain ⟨k0, v0⟩ := p
    by_cases h : k0 = k <;> simp [cacheGet, h, ih]

theorem docLoop_cached (migrateFn : String → Option DocRef) (ds : List String) :
    ∀ (cache : List (String × DocRef)) (d : String) (r : DocRef),
      cacheGet cache d = some r →
      cacheGet (migrate_files_docLoop migrateFn ds cache).1 d = some r ∧
      (migrate_files_docLoop migrateFn ds cache).2.count d = 0 := by
  induction ds with
  | nil =>
    intro cache d r h
    exact ⟨h, rfl⟩
  | cons d0 ds ih =>
    intro cache d r h
    unfold migrate_files_docLoop
    rcases h0 : cacheGet cache d0 with _ | r0
    · have hne : d0 ≠ d := fun he => by rw [he, h] at h0; cases h0
      have hne2 : d ≠ d0 := fun he => hne he.symm
      rcases hm : migrateFn d0 with _ | ref
      · have := ih cache d r h
        simp only [List.count_cons]
        constructor
        · exact this.1
        · simp [this.2, hne2, hne]
      · have hext : cacheGet (cache ++ [(d0, ref)]) d = some r := by
          rw [cacheGet_append, h]
        have := ih (cache ++ [(d0, ref)]) d r hext
        simp only [List.count_cons]
        constructor
        · exact this.1
        · simp [this.2, hne2, hne]
    · exact ih cache d r h

theorem docLoop_fresh (migrateFn : String → Option DocRef) (d : String) (r : DocRef)
    (hmig : migrateFn d = some r) (ds : List String) :
    ∀ cache : List (String × DocRef), cacheGet cache d = none →
      (migrate_files_docLoop migrateFn ds cache).2.count d =
        (if d ∈ ds then 1 else 0) ∧
      (d ∈ ds → cacheGet (migrate_files_docLoop migrateFn ds cache).1 d = some r) := by
  induction ds with
  | nil =>
    intro cache _
    refine ⟨?_, fun h => absurd h (List.not_mem_nil d)⟩
    simp [migrate_files_docLoop]
  | cons d0 ds ih =>
    intro cache hc
    unfold migrate_files_docLoop
    by_cases hd : d0 = d
    · subst hd
      rw [hc, hmig]
      have hext : cacheGet (cache ++ [(d0, r)]) d0 = some r := by
        rw [cacheGet_append, hc]
        simp [cacheGet]
      have hcached := docLoop_cached migrateFn ds (cache ++ [(d0, r)]) d0 r hext
      constructor
      · simp [List.count_cons, hcached.2]
      · intro _
        exact hcached.1
    · have hd2 : d ≠ d0 := fun he => hd he.symm
      rcases h0 : cacheGet cache d0 with _ | r0
      · rcases hm : migrateFn d0 with _ | ref
        · have := ih cache hc
          constructor
          · simp only [List.count_cons, this.1]
            simp [List.mem_cons, hd2, hd]
          · intro hmem
            rcases List.mem_cons.mp hmem with he | hmem
            · exact absurd he.symm hd
            · exact (ih cache hc).2 hmem
        · have hext : cacheGet (cache ++ [(d0, ref)]) d = none := by
            rw [cacheGet_append, hc]
            simp [cacheGet, hd]
          have := ih (cache ++ [(d0, ref)]) hext
          constructor
          · simp only [List.count_cons, this.1]
            simp [List.mem_cons, hd2, hd]
          · intro hmem
            rcases List.mem_cons.mp hmem with he | hmem
            · exact absurd he.symm hd
            · exact this.2 hmem
      · have := ih cache hc
        constructor
        · rw [this.1]
          simp [List.mem_cons, hd2]
        · intro hmem
          rcases List.mem_cons.mp hmem with he | hmem
          · exact absurd he.symm hd
          · exact this.2 hmem

/- ===================================================================
   `migrate_versions` in src/migrateCDL2.py lines 102-145: the mapping
   rows are sliced into 200-row chunks (line 104); for each chunk,
   `fetch_contentversions` queries the latest ContentVersion for the
   chunk's ContentDocumentIds (lines 63-72, modelled as a filter of the
   source org's latest-version records), and EVERY returned version is
   downloaded and uploaded (lines 112-127). There is no cross-chunk
   cache: the result lists the versions uploaded, with one entry per
   upload performed.
   =================================================================== -/

structure CdlRow where
  contentDocumentId : String
  targetParentId : Option String
deriving Repr, DecidableEq

structure VersionRec where
  id : String
  contentDocumentId : String
deriving Repr, DecidableEq

def migrateCDL2_uploads (orgVersions : List VersionRec) (mappings : List CdlRow) :
    List VersionRec :=
  ((chunkList 200 mappings).map (fun chunk =>
    orgVersions.filter (fun v =>
      v.contentDocumentId ∈ chunk.map (fun m => m.contentDocumentId)))).flatten

def rowD : CdlRow := ⟨"D", some "T1"⟩

def rowX : CdlRow := ⟨"X", none⟩

/-- 201 mapping rows: document D on the first and the last row, with
199 rows for document X in between, so D's rows land in two different
200-row chunks. -/
def cdlRows : List CdlRow := rowD :: (List.replicate 199 rowX ++ [rowD])

theorem cdlRows_chunks :
    chunkList 200 cdlRows = [rowD :: List.replicate 199 rowX, [rowD]] := by
  have h200 : (200 : Nat) = 199 + 1 := by norm_num
  have hlen : (List.replicate 199 rowX).length = 199 := List.length_replicate 199 rowX
  have htake : (rowD :: (List.replicate 199 rowX ++ [rowD])).take 200 =
      rowD :: List.replicate 199 rowX := by
    rw [h200, List.take_succ_cons, List.take_left' hlen]
  have hdrop : (rowD :: (List.replicate 199 rowX ++ [rowD])).drop 200 = [rowD] := by
    rw [h200, List.drop_succ_cons, List.drop_left' hlen]
  rw [cdlRows, chunkList_pos 200 rowD _ (by omega), htake, hdrop,
    chunkList_pos 200 rowD [] (by omega)]
  have htake2 : ([rowD] : List CdlRow).take 200 = [rowD] :=
    List.take_of_length_le (by simp)
  have hdrop2 : ([rowD] : List CdlRow).drop 200 = [] :=
    List.drop_of_length_le (by simp)
  rw [htake2, hdrop2, chunkList_nil]

/-- C4 counterexample: in `migrate_versions` of migrateCDL2.py the
deduplication of the binary migrate step is only per 200-row chunk.
On the concrete 201-row input `cdlRows`, document D appears on the
first and the last row, which fall into two different chunks, and its
latest version V1 is downloaded and uploaded twice within the one
run — contradicting the claimed exactly-once migrate per source
document id. -/
theorem C4_counterexample :
    (migrateCDL2_uploads [⟨"V1", "D"⟩, ⟨"V2", "X"⟩] cdlRows).count ⟨"V1", "D"⟩ = 2 := by
  unfold migrateCDL2_uploads
  rw [cdlRows_chunks]
  set_option maxRecDepth 2000 in
  simp [List.filter_cons, List.mem_cons, List.mem_replicate, List.count_cons,
    rowD, rowX]

/-- C4 amended: the exactly-once guarantee holds for the
`migrate_files` dedup cache (reletedDataHelper.py): over any request
sequence of a run, a document id whose migrate step succeeds is
migrated exactly once — on its first request — and is then cached so
every later request (also with a cache carried over from earlier
calls) reuses the stored target document/version ids without invoking
the migrate step again; but it does not hold for
migrateCDL2.migrate_versions, which deduplicates only within one
200-row chunk (see the counterexample). -/
theorem C4_dedup_amended (migrateFn : String → Option DocRef)
    (requests : List String) (d : String) (r : DocRef)
    (hmig : migrateFn d = some r) :
    ((migrate_files_docLoop migrateFn requests []).2.count d =
      if d ∈ requests then 1 else 0) ∧
    (d ∈ requests →
      cacheGet (migrate_files_docLoop migrateFn requests []).1 d = some r) ∧
    (∀ (cache : List (String × DocRef)) (r0 : DocRef), cacheGet cache d = some r0 →
      (migrate_files_docLoop migrateFn requests cache).2.count d = 0 ∧
      cacheGet (migrate_files_docLoop migrateFn requests cache).1 d = some r0) := by
  have h := docLoop_fresh migrateFn d r hmig requests [] rfl
  refine ⟨h.1, h.2, ?_⟩
  intro cache r0 hc
  have h2 := docLoop_cached migrateFn requests cache d r0 hc
  exact ⟨h2.2, h2.1⟩

/-- C4 amended witness: the dedup-cache behaviour at a concrete run —
requests [D, D, E] with a migrate step succeeding on D: exactly one
invocation for D, the result cached, and a pre-populated cache
suppresses any invocation. -/
theorem C4_dedup_amended_witness :
    ((migrate_files_docLoop
        (fun d => if d = "D" then some ⟨"TD", "TV", "SV"⟩ else none)
        ["D", "D", "E"] []).2.count "D" = 1) ∧
    (cacheGet (migrate_files_docLoop
        (fun d => if d = "D" then some ⟨"TD", "TV", "SV"⟩ else none)
        ["D", "D", "E"] []).1 "D" = some ⟨"TD", "TV", "SV"⟩) ∧
    ((migrate_files_docLoop
        (fun d => if d = "D" then some ⟨"TD", "TV", "SV"⟩ else none)
        ["D"] [("D", ⟨"TD0", "TV0", "SV0"⟩)]).2.count "D" = 0) := by
  have h := C4_dedup_amended
    (fun d => if d = "D" then some ⟨"TD", "TV", "SV"⟩ else none)
    ["D", "D", "E"] "D" ⟨"TD", "TV", "SV"⟩ (by decide)
  refine ⟨?_, ?_, ?_⟩
  · have h1 := h.1
    simpa using h1
  · exact h.2.1 (by simp)
  · exact ((C4_dedup_amended
      (fun d => if d = "D" then some ⟨"TD", "TV", "SV"⟩ else none)
      ["D"] "D" ⟨"TD", "TV", "SV"⟩ (by decide)).2.2
      [("D", ⟨"TD0", "TV0", "SV0"⟩)] ⟨"TD0", "TV0", "SV0"⟩ (by decide)).1

/- ===================================================================
   Link creation.
   In `migrate_files` (reletedDataHelper.py lines 458-483) a
   ContentDocumentLink is created only after an existence query for
   the exact (target document id, target parent id) pair returns no
   row; the target org state is modelled as the list of existing
   (doc, parent) link pairs, threaded through the requests in order so
   that a link created earlier in the run is seen by later checks.
   In `create_cdl` of CdlMigration.py (lines 162-169) and
   migrateCDL2.py (lines 83-96) the link is created unconditionally:
   no existence query is issued.
   =================================================================== -/

def migrate_files_createLinks :
    List (String × String) → List (String × String) → List (String × String)
  | state, [] => state
  | state, p :: rest =>
    if p ∈ state then migrate_files_createLinks state rest
    else migrate_files_createLinks (state ++ [p]) rest

def create_cdl (state : List (String × String)) (new_doc_id parent_id : String) :
    List (String × String) :=
  state ++ [(new_doc_id, parent_id)]

theorem createLinks_count (requests : List (String × String)) :
    ∀ (state : List (String × String)) (p : String × String),
      (migrate_files_createLinks state requests).count p =
        if p ∈ state then state.count p else (if p ∈ requests then 1 else 0) := by
  induction requests with
  | nil =>
    intro state p
    unfold migrate_files_createLinks
    by_cases h : p ∈ state
    · simp [h]
    · simp [h, List.count_eq_zero.mpr h]
  | cons q rest ih =>
    intro state p
    unfold migrate_files_createLinks
    by_cases hq : q ∈ state
    · simp only [hq, if_true]
      rw [ih state p]
      by_cases hp : p ∈ state
      · simp [hp]
      · have hpq : p ≠ q := fun he => hp (he ▸ hq)
        simp [hp, List.mem_cons, hpq]
    · simp only [hq, if_false]
      rw [ih (state ++ [q]) p]
      by_cases hpq : p = q
      · subst hpq
        have hp : p ∉ state := hq
        simp [hp, List.mem_append, List.count_append, List.count_eq_zero.mpr hp]
      · by_cases hp : p ∈ state
        · simp [hp, List.mem_append, List.count_append,
            List.count_eq_zero.mpr (by simp [hpq] : p ∉ [q])]
        · have hp2 : p ∉ state ++ [q] := by
            simp [List.mem_append, hp, hpq]
          simp [hp, hp2, List.mem_cons, hpq]

/-- C5 counterexample: `create_cdl` (CdlMigration.py lines 162-169 and
migrateCDL2.py lines 83-96) issues no existence query before creating
the link: called for a (doc, parent) pair whose identical link already
exists in the target org, it creates a second identical link record —
the claimed universal check-before-insert does not hold for these two
scripts. -/
theorem C5_counterexample :
    (create_cdl [("D", "P")] "D" "P").count ("D", "P") = 2 := by
  decide

/-- C5 amended: only `migrate_files` (reletedDataHelper.py) performs
the pre-insert existence query, and for it link creation is
idempotent: processing any request sequence against any target org
state, a pair already present is never re-created (its multiplicity
is unchanged), and a pair not initially present is created at most
once no matter how often it is requested; `create_cdl` in
CdlMigration.py and migrateCDL2.py creates the link unconditionally
(see the counterexample). -/
theorem C5_link_check_amended (state requests : List (String × String))
    (p : String × String) :
    ((migrate_files_createLinks state requests).count p =
      if p ∈ state then state.count p else (if p ∈ requests then 1 else 0)) ∧
    (p ∈ state →
      (migrate_files_createLinks state requests).count p = state.count p) ∧
    (p ∉ state → (migrate_files_createLinks state requests).count p ≤ 1) := by
  have h := createLinks_count requests state p
  refine ⟨h, ?_, ?_⟩
  · intro hp
    rw [h]
    simp [hp]
  · intro hp
    rw [h]
    simp only [hp, if_false]
    by_cases hr : p ∈ requests <;> simp [hr]

/-- C5 amended witness: the idempotence statement at a concrete state —
a target org already holding the link (D, P): re-running requests
[(D, P), (E, Q)] leaves exactly one (D, P) link. -/
theorem C5_link_check_amended_witness :
    (migrate_files_createLinks [("D", "P")] [("D", "P"), ("E", "Q")]).count
        ("D", "P") = ([("D", "P")] : List (String × String)).count ("D", "P") ∧
    (migrate_files_createLinks [("D", "P")] [("D", "P"), ("E", "Q")]).count
        ("E", "Q") ≤ 1 := by
  constructor
  · exact (C5_link_check_amended [("D", "P")] [("D", "P"), ("E", "Q")]
      ("D", "P")).2.1 (by decide)
  · exact (C5_link_check_amended [("D", "P")] [("D", "P"), ("E", "Q")]
      ("E", "Q")).2.2 (by decide)

/- ===================================================================
   Owner resolution: `build_owner_mapping` in src/mappings.py lines
   77-154. The two orgs are modelled by `OwnerOrgData`:
   `sourceQueues` are the source Group records of Type Queue as
   (Id, DeveloperName), `targetQueues` the target ones, `targetUsers`
   the target User records as (Id, Card_Legacy_Id__c). A SOQL
   membership query is a filter of the respective record list; a
   Python dict is a function updated with last-write-wins (for the two
   dict comprehensions built by iteration, the reversed-list lookup
   realizes the overwrite of earlier entries by later ones).
   `integration_user_id` is the hardcoded fallback of line 85.
   =================================================================== -/

def integration_user_id : String := "005DP000009MeHkYAK"

structure OwnerOrgData where
  sourceQueues : List (String × String)
  targetQueues : List (String × String)
  targetUsers : List (String × String)

/-- Lines 92-124: resolve source queue ids to target queue ids via the
queue DeveloperName shared between orgs. -/
def build_group_mapping (org : OwnerOrgData) (id_list : List String) :
    String → Option String :=
  let source_group_ids := id_list.filter (fun oid => oid.startsWith "00G")
  let source_groups := org.sourceQueues.filter (fun g => g.1 ∈ source_group_ids)
  let dev_names := (source_groups.filter (fun g => g.2 ≠ "")).map (fun g => g.2)
  let target_groups := org.targetQueues.filter (fun g => g.2 ∈ dev_names)
  let target_map : String → Option String := fun dn =>
    ((target_groups.map (fun g => (g.2, g.1))).reverse).lookup dn
  fun gid =>
    ((source_groups.filterMap (fun g =>
      if g.2 ≠ "" then
        match target_map g.2 with
        | some t => some (g.1, t)
        | none => none
      else none)).reverse).lookup gid

def omUpdate (m : String → Option String) (k v : String) : String → Option String :=
  fun x => if x = k then some v else m x

/-- One iteration of the 500-id chunk loop of lines 127-152: resolve
the chunk's user ids against the target User table, copy the group
resolutions, then bind every still-unresolved id of the chunk to the
integration user. -/
def ownerChunkStep (org : OwnerOrgData) (group_mapping : String → Option String)
    (owner_mapping : String → Option String) (chunk : List String) :
    String → Option String :=
  let user_ids := chunk.filter (fun oid => oid.startsWith "005")
  let user_results := org.targetUsers.filter (fun u => u.2 ∈ user_ids)
  let m1 := user_results.foldl
    (fun m u => if u.2 ≠ "" then omUpdate m u.2 u.1 else m) owner_mapping
  let m2 := chunk.foldl (fun m oid =>
    if oid.startsWith "00G" then
      match group_mapping oid with
      | some t => omUpdate m oid t
      | none => m
    else m) m1
  chunk.foldl (fun m oid =>
    match m oid with
    | some _ => m
    | none => omUpdate m oid integration_user_id) m2

def build_owner_mapping (org : OwnerOrgData) (ownerIds : List String) :
    String → Option String :=
  match ownerIds with
  | [] => fun _ => none
  | _ :: _ =>
    let group_mapping := build_group_mapping org ownerIds
    (chunkList 500 ownerIds).foldl (ownerChunkStep org group_mapping) (fun _ => none)

/-- The value classification the claim asks for: a resolved owner id is
bound to a target user matched by legacy id, to a target queue matched
by developer name, or to the integration-user fallback. -/
def OwnerGood (org : OwnerOrgData) (gm : String → Option String)
    (k v : String) : Prop :=
  (∃ u ∈ org.targetUsers, u.2 = k ∧ u.1 = v) ∨ gm k = some v ∨
    v = integration_user_id

theorem foldl_defined_mono {β : Type}
    (f : (String → Option String) → β → (String → Option String))
    (hf : ∀ m a x, m x ≠ none → f m a x ≠ none) (l : List β) :
    ∀ (m : String → Option String) (x : String), m x ≠ none →
      (l.foldl f m) x ≠ none := by
  induction l with
  | nil => intro m x h; exact h
  | cons a rest ih =>
    intro m x h
    simp only [List.foldl_cons]
    exact ih (f m a) x (hf m a x h)

theorem foldl_good {β : Type} (P : String → String → Prop)
    (f : (String → Option String) → β → (String → Option String))
    (hf : ∀ m a, (∀ k v, m k = some v → P k v) →
      ∀ k v, f m a k = some v → P k v) (l : List β) :
    ∀ m : String → Option String, (∀ k v, m k = some v → P k v) →
      ∀ k v, (l.foldl f m) k = some v → P k v := by
  induction l with
  | nil => intro m hm; exact hm
  | cons a rest ih =>
    intro m hm
    simp only [List.foldl_cons]
    exact ih (f m a) (hf m a hm)

theorem omUpdate_defined (m : String → Option String) (k v x : String)
    (h : m x ≠ none) : omUpdate m k v x ≠ none := by
  unfold omUpdate
  by_cases hx : x = k <;> simp [hx, h]

theorem ownerChunkStep_defined_mono (org : OwnerOrgData)
    (gm : String → Option String) (m : String → Option String)
    (chunk : List String) (x : String) (h : m x ≠ none) :
    ownerChunkStep org gm m chunk x ≠ none := by
  unfold ownerChunkStep
  apply foldl_defined_mono
  · intro m2 oid x2 h2
    rcases hm2 : m2 oid with _ | v
    · exact omUpdate_defined m2 oid integration_user_id x2 h2
    · exact h2
  apply foldl_defined_mono
  · intro m2 oid x2 h2
    by_cases hg : oid.startsWith "00G"
    · rw [if_pos hg]
      rcases gm oid with _ | t
      · exact h2
      · exact omUpdate_defined m2 oid t x2 h2
    · rw [if_neg hg]
      exact h2
  apply foldl_defined_mono
  · intro m2 u x2 h2
    by_cases hu : u.2 ≠ ""
    · rw [if_pos hu]
      exact omUpdate_defined m2 u.2 u.1 x2 h2
    · rw [if_neg hu]
      exact h2
  exact h

theorem fallback_total (l : List String) :
    ∀ (m : String → Option String), ∀ oid ∈ l,
      (l.foldl (fun m oid =>
        match m oid with
        | some _ => m
        | none => omUpdate m oid integration_user_id) m) oid ≠ none := by
  induction l with
  | nil => intro m oid h; cases h
  | cons o rest ih =>
    intro m oid hmem
    simp only [List.foldl_cons]
    rcases List.mem_cons.mp hmem with he | hmem2
    · subst he
      apply foldl_defined_mono
      · intro m2 oid2 x2 h2
        rcases m2 oid2 with _ | v
        · exact omUpdate_defined m2 oid2 integration_user_id x2 h2
        · exact h2
      rcases hm : m oid with _ | v
      · simp only [hm]
        unfold omUpdate
        simp
      · simp only [hm]
        simp
    · exact ih _ oid hmem2

theorem ownerChunkStep_total (org : OwnerOrgData) (gm : String → Option String)
    (m : String → Option String) (chunk : List String) (oid : String)
    (hmem : oid ∈ chunk) : ownerChunkStep org gm m chunk oid ≠ none := by
  unfold ownerChunkStep
  exact fallback_total chunk _ oid hmem

theorem omUpdate_cases (m : String → Option String) (k0 v0 k v : String)
    (h : omUpdate m k0 v0 k = some v) : (k = k0 ∧ v = v0) ∨ m k = some v := by
  unfold omUpdate at h
  by_cases hk : k = k0
  · rw [if_pos hk] at h
    exact Or.inl ⟨hk, (Option.some.inj h).symm⟩
  · rw [if_neg hk] at h
    exact Or.inr h

theorem foldl_good_mem {β : Type} (P : String → String → Prop)
    (f : (String → Option String) → β → (String → Option String)) :
    ∀ l : List β,
      (∀ m a, a ∈ l → (∀ k v, m k = some v → P k v) →
        ∀ k v, f m a k = some v → P k v) →
      ∀ m : String → Option String, (∀ k v, m k = some v → P k v) →
        ∀ k v, (l.foldl f m) k = some v → P k v := by
  intro l
  induction l with
  | nil => intro _ m hm; exact hm
  | cons a rest ih =>
    intro hf m hm
    simp only [List.foldl_cons]
    exact ih (fun m2 a2 ha2 => hf m2 a2 (List.mem_cons_of_mem a ha2))
      (f m a) (hf m a (List.mem_cons_self a rest) hm)

theorem ownerChunkStep_good (org : OwnerOrgData) (gm : String → Option String)
    (m : String → Option String) (chunk : List String)
    (hm : ∀ k v, m k = some v → OwnerGood org gm k v) :
    ∀ k v, ownerChunkStep org gm m chunk k = some v → OwnerGood org gm k v := by
  unfold ownerChunkStep
  apply foldl_good_mem
  · intro m2 oid _ hm2 k v h
    rcases hmo : m2 oid with _ | v0
    · simp only [hmo] at h
      rcases omUpdate_cases m2 oid integration_user_id k v h with ⟨_, hv⟩ | h2
      · exact Or.inr (Or.inr hv)
      · exact hm2 k v h2
    · simp only [hmo] at h
      exact hm2 k v h
  apply foldl_good_mem
  · intro m2 oid _ hm2 k v h
    by_cases hg : oid.startsWith "00G"
    · rw [if_pos hg] at h
      rcases hgm : gm oid with _ | t
      · rw [hgm] at h
        exact hm2 k v h
      · rw [hgm] at h
        rcases omUpdate_cases m2 oid t k v h with ⟨hk, hv⟩ | h2
        · subst hk
          subst hv
          exact Or.inr (Or.inl hgm)
        · exact hm2 k v h2
    · rw [if_neg hg] at h
      exact hm2 k v h
  apply foldl_good_mem
  · intro m2 u hu_mem hm2 k v h
    by_cases hu : u.2 ≠ ""
    · rw [if_pos hu] at h
      rcases omUpdate_cases m2 u.2 u.1 k v h with ⟨hk, hv⟩ | h2
      · left
        exact ⟨u, (List.mem_filter.mp hu_mem).1, hk.symm, hv.symm⟩
      · exact hm2 k v h2
    · rw [if_neg hu] at h
      exact hm2 k v h
  exact hm

theorem chunks_fold_total (org : OwnerOrgData) (gm : String → Option String)
    (chunks : List (List String)) :
    ∀ (m : String → Option String) (oid : String),
      (∃ c ∈ chunks, oid ∈ c) →
      (chunks.foldl (ownerChunkStep org gm) m) oid ≠ none := by
  induction chunks with
  | nil =>
    intro m oid h
    obtain ⟨c, hc, _⟩ := h
    cases hc
  | cons c0 rest ih =>
    intro m oid h
    obtain ⟨c, hc, hoc⟩ := h
    simp only [List.foldl_cons]
    rcases List.mem_cons.mp hc with he | hc2
    · subst he
      exact foldl_defined_mono (ownerChunkStep org gm)
        (fun m2 a x h2 => ownerChunkStep_defined_mono org gm m2 a x h2) rest
        (ownerChunkStep org gm m c) oid
        (ownerChunkStep_total org gm m c oid hoc)
    · exact ih _ oid ⟨c, hc2, hoc⟩

/-- C7: for every non-empty owner id set, the mapping built by
`build_owner_mapping` is total on its input: every input id resolves
to some target id, and that id is a target user matched by legacy id,
a target queue matched by developer name (`build_group_mapping`), or
the fixed integration-user fallback — no input owner id is left
unmapped. -/
theorem C7_owner_mapping_total (org : OwnerOrgData) (ownerIds : List String)
    (hne : ownerIds ≠ []) (oid : String) (hmem : oid ∈ ownerIds) :
    ∃ v, build_owner_mapping org ownerIds oid = some v ∧
      OwnerGood org (build_group_mapping org ownerIds) oid v := by
  rcases hids : ownerIds with _ | ⟨a, rest⟩
  · exact absurd hids hne
  subst hids
  unfold build_owner_mapping
  have hflat : ((chunkList 500 (a :: rest)).flatten : List String) = a :: rest :=
    chunkList_flatten 500 (a :: rest) (by omega)
  have hchunks : ∃ c ∈ chunkList 500 (a :: rest), oid ∈ c := by
    rw [← hflat] at hmem
    exact List.mem_flatten.mp hmem
  have htotal := chunks_fold_total org (build_group_mapping org (a :: rest))
    (chunkList 500 (a :: rest)) (fun _ => none) oid hchunks
  rcases hres : ((chunkList 500 (a :: rest)).foldl
      (ownerChunkStep org (build_group_mapping org (a :: rest)))
      (fun _ => none)) oid with _ | v
  · exact absurd hres htotal
  · refine ⟨v, hres, ?_⟩
    refine foldl_good_mem (OwnerGood org (build_group_mapping org (a :: rest)))
      (ownerChunkStep org (build_group_mapping org (a :: rest)))
      (chunkList 500 (a :: rest))
      (fun m c _ hm => ownerChunkStep_good org _ m c hm)
      (fun _ => none) (fun k v2 h => by cases h) oid v hres

/-- C7 witness: totality at a concrete input — the id 005B has no
target-user or queue match and must resolve (to the integration
user). -/
theorem C7_owner_mapping_total_witness :
    ∃ v, build_owner_mapping ⟨[("00G1", "Q1")], [("TQ1", "Q1")], [("TU1", "005A")]⟩
        ["005A", "00G1", "005B"] "005B" = some v ∧
      OwnerGood ⟨[("00G1", "Q1")], [("TQ1", "Q1")], [("TU1", "005A")]⟩
        (build_group_mapping ⟨[("00G1", "Q1")], [("TQ1", "Q1")], [("TU1", "005A")]⟩
          ["005A", "00G1", "005B"]) "005B" v :=
  C7_owner_mapping_total ⟨[("00G1", "Q1")], [("TQ1", "Q1")], [("TU1", "005A")]⟩
    ["005A", "00G1", "005B"] (by simp) "005B" (by simp)

/- ===================================================================
   Inline-image rewriting. Two near-duplicate functions named
   `related_recordid_mapping` exist: one for FeedItems in
   src/mappings.py lines 214-271, one for FeedComments in
   src/FeedCommentMigration.py lines 41-82. A rich-text body is
   modelled as a list of segments — plain text or one
   img src="sfdc://<contentDocId>" tag — so that
   re.findall of the img/src pattern is `imgIds` (ids in order) and
   re.sub removing img tags is `stripImgs`. `content_map` models the
   source-org latest-ContentVersion lookup
   (ContentDocumentId -> ContentVersionId) both functions build; the
   early return when no body holds any img tag equals the identity on
   every record and needs no separate case.
   =================================================================== -/

inductive BodySeg
  | txt (s : String)
  | img (docId : String)
deriving Repr, DecidableEq

def imgIds (b : List BodySeg) : List String :=
  b.filterMap (fun s =>
    match s with
    | .img d => some d
    | .txt _ => none)

def stripImgs (b : List BodySeg) : List BodySeg :=
  b.filter (fun s =>
    match s with
    | .img _ => false
    | .txt _ => true)

structure FCBodyRec where
  body : List BodySeg
  relatedRecordId : Option String
deriving Repr, DecidableEq

/-- FeedCommentMigration.py lines 72-82: only when the FIRST embedded
content id resolves in `content_map` is the RelatedRecordId set and
the img markup removed; otherwise the record — its body included — is
returned unchanged. -/
def fc_related_recordid_mapping (content_map : String → Option String)
    (records : List FCBodyRec) : List FCBodyRec :=
  records.map (fun rec =>
    match imgIds rec.body with
    | [] => rec
    | docId :: _ =>
      match content_map docId with
      | some verId => ⟨stripImgs rec.body, some verId⟩
      | none => rec)

structure FIBodyRec where
  body : List BodySeg
  relatedRecordId : Option String
  createdById : Option String
deriving Repr, DecidableEq

/-- mappings.py lines 214-271: the CreatedById remap of lines 223-224,
then — for EVERY record — the img markup is removed from the body
(lines 253-262), and when the first embedded content id of the
ORIGINAL body resolves, the resolved version id is stored in
RelatedRecordId (lines 264-268). -/
def fi_related_recordid_mapping (createdBy_mappings content_map : String → Option String)
    (records : List FIBodyRec) : List FIBodyRec :=
  let records1 := records.map (fun rec =>
    (⟨rec.body, rec.relatedRecordId, rec.createdById.bind createdBy_mappings⟩ : FIBodyRec))
  records1.map (fun rec =>
    let stripped : FIBodyRec := ⟨stripImgs rec.body, rec.relatedRecordId, rec.createdById⟩
    match imgIds rec.body with
    | [] => stripped
    | docId :: _ =>
      match content_map docId with
      | some verId => ⟨stripped.body, some verId, stripped.createdById⟩
      | none => stripped)

theorem imgIds_stripImgs (b : List BodySeg) : imgIds (stripImgs b) = [] := by
  induction b with
  | nil => rfl
  | cons s rest ih =>
    cases s with
    | txt t => simpa [stripImgs, imgIds, List.filter_cons] using ih
    | img d => simpa [stripImgs, imgIds, List.filter_cons] using ih

/-- C9 counterexample: in the FeedComment variant, a body whose
embedded content id has NO mapping is left entirely unchanged — the
img markup, and with it the source-org content id, remains in the
emitted body, contradicting the claim that in both cases no source-org
content id survives. -/
theorem C9_counterexample :
    fc_related_recordid_mapping (fun _ => none) [⟨[.img "069SRC"], none⟩] =
      [⟨[.img "069SRC"], none⟩] ∧
    imgIds ((⟨[.img "069SRC"], none⟩ : FCBodyRec)).body = ["069SRC"] := by
  exact ⟨rfl, rfl⟩

/-- C9 amended: the two variants behave differently, and neither
substitutes a target id into the body itself. In the FeedItem variant
(mappings.py) the img markup is always removed — no source content id
remains in any emitted body — and when the first embedded id resolves,
the resolved content-version id is recorded in the RelatedRecordId
field. In the FeedComment variant (FeedCommentMigration.py) the markup
is removed, and RelatedRecordId set, only when the first embedded id
resolves; when it does not, the body is returned unchanged and the
source-org content id remains. -/
theorem C9_image_rewrite_amended (createdBy_mappings content_map : String → Option String)
    (fiRecs : List FIBodyRec) (fcRecs : List FCBodyRec) :
    (∀ rec ∈ fi_related_recordid_mapping createdBy_mappings content_map fiRecs,
        imgIds rec.body = []) ∧
    (∀ rec ∈ fiRecs, ∀ d, (imgIds rec.body).head? = some d →
        ∀ v, content_map d = some v →
        (⟨stripImgs rec.body, some v, rec.createdById.bind createdBy_mappings⟩ :
            FIBodyRec) ∈
          fi_related_recordid_mapping createdBy_mappings content_map fiRecs) ∧
    (∀ rec ∈ fcRecs, ∀ d, (imgIds rec.body).head? = some d →
        ((∀ v, content_map d = some v →
            (⟨stripImgs rec.body, some v⟩ : FCBodyRec) ∈
              fc_related_recordid_mapping content_map fcRecs) ∧
         (content_map d = none →
            rec ∈ fc_related_recordid_mapping content_map fcRecs))) := by
  refine ⟨?_, ?_, ?_⟩
  · intro rec hrec
    unfold fi_related_recordid_mapping at hrec
    simp only [List.map_map, List.mem_map] at hrec
    obtain ⟨a, _, ha⟩ := hrec
    subst ha
    simp only [Function.comp]
    rcases him : imgIds a.body with _ | ⟨d, rest⟩
    · simpa [him] using imgIds_stripImgs a.body
    · simp only [him]
      rcases content_map d with _ | v
    

      · exact imgIds_stripImgs a.body
      · exact imgIds_stripImgs a.body
  · intro rec hrec d hd v hv
    unfold fi_related_recordid_mapping
    simp only [List.map_map, List.mem_map]
    refine ⟨rec, hrec, ?_⟩
    simp only [Function.comp]
    rcases him : imgIds rec.body with _ | ⟨d0, rest⟩
    · rw [him] at hd
      cases hd
    · rw [him] at hd
      simp only [List.head?] at hd
      rcases Option.some.inj hd with rfl
      simp [hv]
  · intro rec hrec d hd
    constructor
    · intro v hv
      unfold fc_related_recordid_mapping
      simp only [List.mem_map]
      refine ⟨rec, hrec, ?_⟩
      rcases him : imgIds rec.body with _ | ⟨d0, rest⟩
      · rw [him] at hd
        cases hd
      · rw [him] at hd
        simp only [List.head?] at hd
        rcases Option.some.inj hd with rfl
        simp [hv]
    · intro hv
      unfold fc_related_recordid_mapping
      simp only [List.mem_map]
      refine ⟨rec, hrec, ?_⟩
      rcases him : imgIds rec.body with _ | ⟨d0, rest⟩
      · rfl
      · rw [him] at hd
        simp only [List.head?] at hd
        rcases Option.some.inj hd with rfl
        simp [hv]

/-- C9 amended witness: at concrete inputs — a feed item whose
embedded id 069A resolves to version V9 gets its markup stripped and
RelatedRecordId set; a feed comment whose embedded id 069B does not
resolve is returned unchanged, source id still in the body. -/
theorem C9_image_rewrite_amended_witness :
    ((⟨stripImgs [.img "069A"], some "V9", none⟩ : FIBodyRec) ∈
      fi_related_recordid_mapping (fun _ => none)
        (fun d => if d = "069A" then some "V9" else none)
        [⟨[.img "069A"], none, none⟩]) ∧
    ((⟨[.img "069B"], none⟩ : FCBodyRec) ∈
      fc_related_recordid_mapping (fun d => if d = "069A" then some "V9" else none)
        [⟨[.img "069B"], none⟩]) := by
  constructor
  · exact (C9_image_rewrite_amended (fun _ => none)
      (fun d => if d = "069A" then some "V9" else none)
      [⟨[.img "069A"], none, none⟩] []).2.1
      ⟨[.img "069A"], none, none⟩ (List.mem_singleton.mpr rfl) "069A" rfl "V9"
      (by decide)
  · exact ((C9_image_rewrite_amended (fun _ => none)
      (fun d => if d = "069A" then some "V9" else none)
      [] [⟨[.img "069B"], none⟩]).2.2
      ⟨[.img "069B"], none⟩ (List.mem_singleton.mpr rfl) "069B" rfl).2 (by decide)

/- ===================================================================
   Feed migration dependency: `migrate_feed` in
   src/reletedDataHelper.py lines 532-729. Within a chunk, the map
   `source_to_target_fi` gains an entry only when a feed-item insert
   result reports success (lines 619-621); `pairs` models the zip of
   the inserted feed items with their per-record insert results, in
   order. Comments are then fetched only for source feed-item ids
   present in that map (lines 649-656, a filter on the map's keys),
   and a comment payload's FeedItemId is the mapped target id
   (lines 665-681) — a stored value of None (success reported without
   an id) is falsy at line 667 and the comment is skipped, hence the
   map's range type Option (Option String).
   =================================================================== -/

structure SrcComment where
  id : String
  feedItemId : String
deriving Repr, DecidableEq

def build_fi_map (pairs : List (String × InsertResult)) :
    String → Option (Option String) :=
  pairs.foldl (fun m p =>
    if p.2.success then fun y => if y = p.1 then some p.2.id else m y
    else m) (fun _ => none)

def fetch_comments_for (m : String → Option (Option String))
    (orgComments : List SrcComment) : List SrcComment :=
  orgComments.filter (fun c => (m c.feedItemId).isSome)

def cpStep (m : String → Option (Option String))
    (st : List (SrcComment × String) × List OutcomeRow) (c : SrcComment) :
    List (SrcComment × String) × List OutcomeRow :=
  match m c.feedItemId with
  | some (some tgt) => (st.1 ++ [(c, tgt)], st.2)
  | _ =>
    (st.1, st.2 ++ [⟨"FeedComment", none, none, c.id, none, "Failed",
      "Parent FeedItem not migrated"⟩])

def comment_prep (m : String → Option (Option String)) (comments : List SrcComment) :
    List (SrcComment × String) × List OutcomeRow :=
  comments.foldl (cpStep m) ([], [])

theorem fiMapFold_mem (pairs : List (String × InsertResult)) :
    ∀ (init : String → Option (Option String)) (x : String) (v : Option String),
      (pairs.foldl (fun m p =>
        if p.2.success then fun y => if y = p.1 then some p.2.id else m y
        else m) init) x = some v →
      (∃ p ∈ pairs, p.2.success = true ∧ p.1 = x ∧ p.2.id = v) ∨ init x = some v := by
  induction pairs with
  | nil => intro init x v h; exact Or.inr h
  | cons p rest ih =>
    intro init x v h
    simp only [List.foldl_cons] at h
    rcases ih _ x v h with ⟨q, hq, h2⟩ | h2
    · exact Or.inl ⟨q, List.mem_cons_of_mem p hq, h2⟩
    · by_cases hs : p.2.success = true
      · rw [if_pos hs] at h2
        by_cases hx : x = p.1
        · rw [if_pos hx] at h2
          exact Or.inl ⟨p, List.mem_cons_self p rest, hs, hx.symm,
            Option.some.inj h2⟩
        · rw [if_neg hx] at h2
          exact Or.inr h2
      · rw [if_neg hs] at h2
        exact Or.inr h2

theorem comment_prep_mem (m : String → Option (Option String))
    (comments : List SrcComment) :
    ∀ init : List (SrcComment × String) × List OutcomeRow,
      ∀ q ∈ (comments.foldl (cpStep m) init).1,
        q ∈ init.1 ∨ m q.1.feedItemId = some (some q.2) := by
  induction comments with
  | nil => intro init q hq; exact Or.inl hq
  | cons c rest ih =>
    intro init q hq
    simp only [List.foldl_cons] at hq
    rcases ih _ q hq with h | h
    · unfold cpStep at h
      rcases hm : m c.feedItemId with _ | v
      · simp only [hm] at h
        exact Or.inl h
      · rcases v with _ | tgt
        · simp only [hm] at h
          exact Or.inl h
        · simp only [hm] at h
          rcases List.mem_append.mp h with h | h
          · exact Or.inl h
          · rcases List.mem_singleton.mp h with rfl
            exact Or.inr hm
    · exact Or.inr h

/-- C10: in the feed migration stage, every prepared comment payload's
feed-item foreign key is the target id of a feed item that was
successfully inserted earlier in the same run: the source-to-target
feed-item map gains entries only from success results, comments are
fetched only for keys of that map, and each payload's target id comes
from the map — hence from a success entry of the insert-result
pairs. -/
theorem C10_feed_dependency (pairs : List (String × InsertResult))
    (orgComments : List SrcComment) (c : SrcComment) (tgt : String)
    (h : (c, tgt) ∈ (comment_prep (build_fi_map pairs)
        (fetch_comments_for (build_fi_map pairs) orgComments)).1) :
    build_fi_map pairs c.feedItemId = some (some tgt) ∧
    ∃ errs, (c.feedItemId, (⟨true, some tgt, errs⟩ : InsertResult)) ∈ pairs := by
  have h1 := comment_prep_mem (build_fi_map pairs) _ ([], []) (c, tgt) h
  rcases h1 with h1 | h1
  · simp at h1
  · refine ⟨h1, ?_⟩
    rcases fiMapFold_mem pairs (fun _ => none) c.feedItemId (some tgt) h1 with
      ⟨p, hp, hs, hx, hid⟩ | h2
    · obtain ⟨p1, s, i, e⟩ := p
      simp only at hs hx hid
      subst hs
      subst hx
      subst hid
      exact ⟨e, hp⟩
    · cases h2

/-- C10 witness: a concrete run — one feed item FI1 successfully
inserted as TFI1 and one comment C1 on it: the prepared payload's
FeedItemId TFI1 traces back to the success insert-result entry. -/
theorem C10_feed_dependency_witness :
    build_fi_map [("FI1", ⟨true, some "TFI1", []⟩)]
      (⟨"C1", "FI1"⟩ : SrcComment).feedItemId = some (some "TFI1") ∧
    ∃ errs, (((⟨"C1", "FI1"⟩ : SrcComment).feedItemId,
      (⟨true, some "TFI1", errs⟩ : InsertResult)) ∈
      ([("FI1", ⟨true, some "TFI1", []⟩)] : List (String × InsertResult))) :=
  C10_feed_dependency [("FI1", ⟨true, some "TFI1", []⟩)] [⟨"C1", "FI1"⟩]
    ⟨"C1", "FI1"⟩ "TFI1" (by decide)
